import Mathlib

/-!
Verification of the dfs-optimizer core against its design specification.

The Python sources are shallowly embedded:
* floating-point scores/ownership fractions become exact rationals;
* Python `int` becomes `Int`, list indices become `Nat`;
* Python dictionaries become association lists (`List (String × _)`);
* functions that can raise (`assert`, `raise ValueError`) return `Except String _`;
* the external CBC integer-programming solver (driven through PuLP) is not part of
  the repository; following the specification it is treated as a black-box oracle
  whose answer may depend on the no-good cuts accumulated so far.
-/

/-! ### Jaccard distance (src/feature_diversify/selector.py, `jaccard_distance`) -/

/-- Embedding of `jaccard_distance(a, b)`: token sets become `Finset String`,
the float result becomes an exact rational. -/
def jaccard_distance (a b : Finset String) : ℚ :=
  if a = ∅ ∧ b = ∅ then 0
  else if (a ∪ b).card = 0 then 0
  else 1 - ((a ∩ b).card : ℚ) / ((a ∪ b).card : ℚ)

/-- Embedding of `_avg_distance_to_pool(target, pool)`. -/
def avg_distance_to_pool (target : Finset String) (pool : List (Finset String)) : ℚ :=
  if pool = [] then 0
  else (pool.map (fun other => jaccard_distance target other)).sum / (pool.length : ℚ)

/-- C4: `jaccard_distance` is zero on equal arguments (in particular on two empty
sets), symmetric, and its value always lies in the interval `[0, 1]`. -/
theorem C4_jaccard_distance_metric_properties (a b : Finset String) :
    jaccard_distance a a = 0 ∧
    jaccard_distance a b = jaccard_distance b a ∧
    jaccard_distance ∅ ∅ = 0 ∧
    0 ≤ jaccard_distance a b ∧ jaccard_distance a b ≤ 1 := by
  have hrange : ∀ x y : Finset String,
      0 ≤ jaccard_distance x y ∧ jaccard_distance x y ≤ 1 := by
    intro x y
    unfold jaccard_distance
    split
    · exact ⟨le_refl 0, by norm_num⟩
    · split
      · exact ⟨le_refl 0, by norm_num⟩
      · rename_i hu
        have hcard : (x ∩ y).card ≤ (x ∪ y).card :=
          Finset.card_le_card (Finset.inter_subset_union)
        have hupos : (0 : ℚ) < ((x ∪ y).card : ℚ) := by
          exact_mod_cast Nat.pos_of_ne_zero hu
        constructor
        · have : ((x ∩ y).card : ℚ) / ((x ∪ y).card : ℚ) ≤ 1 := by
            rw [div_le_one hupos]
            exact_mod_cast hcard
          linarith
        · have : 0 ≤ ((x ∩ y).card : ℚ) / ((x ∪ y).card : ℚ) :=
            div_nonneg (by positivity) (le_of_lt hupos)
          linarith
  refine ⟨?_, ?_, ?_, (hrange a b).1, (hrange a b).2⟩
  · by_cases h : a = (∅ : Finset String)
    · simp [jaccard_distance, h]
    · have hcard : a.card ≠ 0 := by
        simpa [Finset.card_eq_zero] using h
      have : ¬(a = ∅ ∧ a = ∅) := fun hh => h hh.1
      simp only [jaccard_distance, if_neg this, Finset.inter_self, Finset.union_self,
        if_neg hcard]
      rw [div_self (by exact_mod_cast hcard)]
      ring
  · by_cases h : a = ∅ ∧ b = ∅
    · have h2 : b = ∅ ∧ a = ∅ := ⟨h.2, h.1⟩
      simp only [jaccard_distance, if_pos h, if_pos h2]
    · have h2 : ¬(b = ∅ ∧ a = ∅) := fun hh => h ⟨hh.2, hh.1⟩
      simp only [jaccard_distance, if_neg h, if_neg h2,
        Finset.union_comm a b, Finset.inter_comm a b]
  · simp [jaccard_distance]

/-! ### Classic optimizer data model (dfs_optimizer/models.py) -/

/-- Embedding of `models.Player` (frozen dataclass); float fields become `ℚ`. -/
structure Player where
  name : String
  team : String
  opponent : String
  position : String
  salary : Int
  projection : ℚ
  ownership : ℚ
deriving DecidableEq, Repr

instance : Inhabited Player := ⟨⟨"", "", "", "", 0, 0, 0⟩⟩

/-- Embedding of `models.Parameters` (the classic-slate configuration). -/
structure Parameters where
  lineup_count : Int := 5000
  min_salary : Int := 45000
  allow_qb_vs_dst : Bool := false
  stack : Int := 1
  game_stack : Int := 0
  excluded_players : List String := []
  included_players : List String := []
  excluded_teams : List String := []
  min_players_by_team : List (String × Int) := []
  rb_dst_stack : Bool := false
  min_sum_projection : Option ℚ := none
  min_player_projection : Option ℚ := none
  min_sum_ownership : Option ℚ := none
  max_sum_ownership : Option ℚ := none
  min_product_ownership : Option ℚ := none
  max_product_ownership : Option ℚ := none
  solver_threads : Option Int := none
  solver_time_limit_s : Option Int := none

/-- Embedding of `Parameters.validate` (a sequence of `assert`s): `true` iff no
assertion fires. -/
def Parameters.validate (p : Parameters) : Bool :=
  (0 < p.lineup_count) && (0 ≤ p.min_salary) && (p.min_salary ≤ 50000) &&
  (0 ≤ p.stack) && (0 ≤ p.game_stack) &&
  (p.min_players_by_team.all fun kv => (kv.1 ≠ "" : Bool) && (0 ≤ kv.2 : Bool)) &&
  (match p.min_sum_ownership, p.max_sum_ownership with
   | some a, some b => (a ≤ b : Bool)
   | _, _ => true) &&
  (match p.min_product_ownership, p.max_product_ownership with
   | some a, some b => (a ≤ b : Bool)
   | _, _ => true) &&
  (match p.solver_threads with
   | some t => (0 < t : Bool)
   | none => true) &&
  (match p.solver_time_limit_s with
   | some t => (0 < t : Bool)
   | none => true)

/-- Python `str.upper()` for the ASCII data that occurs here, mapped over the
character list (the byte-level `String.toUpper` does not reduce in the kernel). -/
def pyUpper (s : String) : String := ⟨s.data.map Char.toUpper⟩

/-- Embedding of `models.game_key`: the two uppercased team codes joined by a dash
in lexicographically sorted order. -/
def game_key (team opponent : String) : String :=
  let t := pyUpper team
  let o := pyUpper opponent
  if t ≤ o then t ++ "-" ++ o else o ++ "-" ++ t

/-! ### The solver oracle boundary -/

/-- Modelled from the spec: the integer-programming oracle boundary (spec section 6)
distinguishes `optimal`, `infeasible` and `timeLimitReached` outcomes.  The solver
backend (PuLP driving CBC) is an external collaborator, not part of the repository;
`timeLimitReached` is the outcome surfaced when the wall-clock limit stops the
solver while a feasible incumbent exists, and it is a value different from
`optimal` (in PuLP terms, `prob.solve` returns a status other than
`LpStatusOptimal` in that case). -/
inductive SolveStatus
  | optimal
  | infeasible
  | timeLimitReached
deriving DecidableEq, Repr

/-- One oracle answer: a status plus the set of decision variables assigned 1,
given as the list of their indices. -/
structure OracleAnswer where
  status : SolveStatus
  selected : List Nat
deriving DecidableEq, Repr

/-- Modelled from the spec: the oracle is a deterministic black box; within one run
the only part of the live model that changes between solves is the growing list of
no-good cuts, so an oracle is a function of the cuts added so far. -/
def Oracle := List (List Nat) → OracleAnswer

/-! ### Stack descriptor (dfs_optimizer/optimizer.py, `compute_stack_positions`) -/

/-- Insertion-order-preserving counter bump: `game_counts[g] = game_counts.get(g, 0) + 1`. -/
def assocBump (m : List (String × Nat)) (k : String) : List (String × Nat) :=
  match m with
  | [] => [(k, 1)]
  | (k2, v) :: rest => if k2 = k then (k2, v + 1) :: rest else (k2, v) :: assocBump rest k

/-- Python `max(game_counts, key=...)`: first key attaining the maximal count, in
insertion order (`max` replaces the running best only on strictly greater values). -/
def maxByCountFirst : List (String × Nat) → Option (String × Nat)
  | [] => none
  | kv :: rest => some (rest.foldl (fun acc x => if x.2 > acc.2 then x else acc) kv)

/-- Stable insertion into a list sorted by `le` (used to embed Python `sorted`,
whose key functions here are strict total orders, so stability is irrelevant). -/
def insertSorted (le : α → α → Bool) (x : α) : List α → List α
  | [] => [x]
  | y :: ys => if le x y then x :: y :: ys else y :: insertSorted le x ys

/-- Stable insertion sort by `le` (embedding of Python `sorted`). -/
def sortOn (le : α → α → Bool) (l : List α) : List α :=
  l.foldr (insertSorted le) []

/-- Key order of `sorted(game_counts.items(), key=lambda kv: (-kv[1], kv[0]))`. -/
def gameSortLe (a b : String × Nat) : Bool :=
  (b.2 < a.2 : Bool) || ((a.2 == b.2) && (a.1 ≤ b.1 : Bool))

/-- The six values returned by `compute_stack_positions`. -/
structure StackInfo where
  stack_positions : List String
  max_game_stack : Nat
  max_game_key : String
  stack_count : Nat
  all_game_stacks : List (String × Nat)
  rb_dst_stack : Bool
deriving DecidableEq, Repr

/-- Embedding of `compute_stack_positions`; its `assert len(qb_players) == 1`
makes it fallible. -/
def compute_stack_positions (players : List Player) : Except String StackInfo :=
  let qb_players := players.filter fun p => p.position = "QB"
  if qb_players.length ≠ 1 then .error "assert: compute_stack_positions expects exactly one QB"
  else
    let qb_team := (qb_players.headI).team
    let stacked := sortOn (fun a b => (a ≤ b : Bool))
      (((players.filter fun p =>
          p.team = qb_team ∧ (p.position = "WR" ∨ p.position = "TE")).map
        (fun p => p.position)).dedup)
    let stack_count := players.countP fun p =>
      p.team = qb_team ∧ (p.position = "WR" ∨ p.position = "TE")
    let game_counts := (players.filter fun p => p.position ≠ "DST").foldl
      (fun m p => assocBump m (game_key p.team p.opponent)) []
    let maxPair := maxByCountFirst game_counts
    let max_game_key := match maxPair with
      | some kv => kv.1
      | none => ""
    let max_game := match maxPair with
      | some kv => kv.2
      | none => 0
    let all_games_sorted := sortOn gameSortLe game_counts
    let dst_team := (players.find? fun p => p.position = "DST").map (fun p => p.team)
    let rb_dst := match dst_team with
      | some t => if t = "" then false else players.any fun p => p.position = "RB" ∧ p.team = t
      | none => false
    .ok { stack_positions := stacked
          max_game_stack := max_game
          max_game_key := max_game_key
          stack_count := stack_count
          all_game_stacks := all_games_sorted
          rb_dst_stack := rb_dst }


/-! ### The enumeration loop (dfs_optimizer/optimizer.py, `generate_lineups`) -/

/-- Embedding of `optimizer.LineupResult` (float aggregates become `ℚ`). -/
structure LineupResult where
  players : List Player
  total_projection : ℚ
  total_salary : Int
  sum_ownership : ℚ
  product_ownership : ℚ
  weighted_ownership : ℚ
  stack_positions : List String
  max_game_stack : Nat
  max_game_key : String
  stack_count : Nat
  all_game_stacks : List (String × Nat)
  rb_dst_stack : Bool
deriving DecidableEq, Repr

/-- Number of selected players at a given position. -/
def pos_count (ps : List Player) (pos : String) : Nat :=
  ps.countP fun p => p.position = pos

/-- Embedding of `max_lineups or params.lineup_count`, with Python truthiness: both `None` and
`0` fall back to `lineup_count`. -/
def pyTargetCount (max_lineups : Option Int) (lineup_count : Int) : Int :=
  match max_lineups with
  | some n => if n ≠ 0 then n else lineup_count
  | none => lineup_count

/-- The per-solution tail of one classic loop iteration: extract
`selected_idxs = [i for i in index if x[i].value() == 1]`, run the defensive
`assert`s, compute the derived aggregates, and build the `LineupResult`. -/
def extractClassic (players : List Player) (params : Parameters) (ans : OracleAnswer) :
    Except String (List Nat × LineupResult) :=
  let selected_idxs := (List.range players.length).filter fun i => ans.selected.contains i
  if selected_idxs.length ≠ 9 then .error "assert: selected size must be 9"
  else
    let selected_players := selected_idxs.map fun i => players.getD i default
    if pos_count selected_players "QB" ≠ 1 then .error "assert: QB count"
    else if pos_count selected_players "DST" ≠ 1 then .error "assert: DST count"
    else if pos_count selected_players "RB" < 2 then .error "assert: RB count"
    else if pos_count selected_players "WR" < 3 then .error "assert: WR count"
    else if pos_count selected_players "TE" < 1 then .error "assert: TE count"
    else
      let total_salary := (selected_players.map fun p => p.salary).sum
      if ¬(params.min_salary ≤ total_salary ∧ total_salary ≤ 50000) then
        .error "assert: salary bounds"
      else
        match compute_stack_positions selected_players with
        | .error e => .error e
        | .ok st =>
          .ok (selected_idxs,
            { players := selected_players
              total_projection := (selected_players.map fun p => p.projection).sum
              total_salary := total_salary
              sum_ownership := (selected_players.map fun p => p.ownership).sum
              product_ownership := selected_players.foldl
                (fun acc p => acc * max p.ownership (1 / 1000000000)) 1
              weighted_ownership := (selected_players.map fun p =>
                ((p.salary : ℚ) / 50000) * p.ownership).sum
              stack_positions := st.stack_positions
              max_game_stack := st.max_game_stack
              max_game_key := st.max_game_key
              stack_count := st.stack_count
              all_game_stacks := st.all_game_stacks
              rb_dst_stack := st.rb_dst_stack })

/-- The `while len(lineups) < target` loop of `generate_lineups`: solve, break on a
non-optimal status, extract and validate the solution, append the lineup and the
no-good cut `Σ x[i] ≤ 8` over the winning index set, repeat.  Each iteration
appends exactly one lineup, so `target.toNat` fuel makes the fuel-exhaustion branch
coincide with the loop guard. -/
def enumLoop (players : List Player) (params : Parameters) (oracle : Oracle)
    (target : Int) :
    Nat → List (List Nat) → List LineupResult → Except String (List LineupResult)
  | 0, _, acc => .ok acc
  | fuel + 1, cuts, acc =>
    if (acc.length : Int) < target then
      if (oracle cuts).status ≠ SolveStatus.optimal then .ok acc
      else
        match extractClassic players params (oracle cuts) with
        | .error e => .error e
        | .ok (selected_idxs, lineup) =>
          enumLoop players params oracle target fuel
            (cuts ++ [selected_idxs]) (acc ++ [lineup])
    else .ok acc

/-- Embedding of `generate_lineups(players, params, max_lineups)`.  `params.validate()`
runs first; the required-players `assert idxs, "Included player not in pool"` of the
constraint-building phase fires before any solve.  All other built constraints are
only handed to the black-box oracle and do not otherwise affect control flow. -/
def generate_lineups (players : List Player) (params : Parameters) (oracle : Oracle)
    (max_lineups : Option Int := none) : Except String (List LineupResult) :=
  if !params.validate then .error "assert: Parameters.validate"
  else if params.included_players.any (fun name => players.all fun p => p.name ≠ name) then
    .error "assert: Included player not in pool"
  else
    enumLoop players params oracle (pyTargetCount max_lineups params.lineup_count)
      (pyTargetCount max_lineups params.lineup_count).toNat [] []

/-! ### Showdown optimizer (src/showdown.py) -/

/-- Embedding of `showdown.ShowdownEntry` (frozen dataclass). -/
structure ShowdownEntry where
  name : String
  team : String
  opponent : String
  position : String
  role : String
  salary : Int
  projection : ℚ
  ownership : ℚ
deriving DecidableEq, Repr

instance : Inhabited ShowdownEntry := ⟨⟨"", "", "", "", "", 0, 0, 0⟩⟩

/-- Modelled from the spec: the showdown configuration value (`src.models.Parameters`)
is not among the provided sources; these are exactly the attributes
`generate_lineups_showdown` reads, the optional ones through `getattr(_, _, None)`
(spec section 3, Config). -/
structure ShowdownParameters where
  lineup_count : Int
  min_salary : Int
  min_sum_projection : Option ℚ := none
  max_sum_projection : Option ℚ := none
  min_sum_ownership : Option ℚ := none
  max_sum_ownership : Option ℚ := none
  min_product_ownership : Option ℚ := none
  max_product_ownership : Option ℚ := none
  min_weighted_ownership : Option ℚ := none
  max_weighted_ownership : Option ℚ := none
  excluded_players : List String := []
  included_players : List String := []
  excluded_teams : List String := []
  min_players_by_team : List (String × Int) := []
  solver_threads : Option Int := none
  solver_time_limit_s : Option Int := none

/-- Embedding of `showdown.ShowdownLineupResult`. -/
structure ShowdownLineupResult where
  entries : List ShowdownEntry
  total_projection : ℚ
  total_salary : Int
  sum_ownership : ℚ
  product_ownership : ℚ
  weighted_ownership : ℚ
deriving DecidableEq, Repr

/-- Embedding of the `base_key` lambda (name and a pipe and team): the base identity
shared by the CPT and FLEX variants of one underlying player. -/
def base_key (e : ShowdownEntry) : String :=
  e.name ++ "|" ++ e.team

/-- The per-solution tail of one showdown loop iteration: extract the 0/1
assignment, assert 6 entries with exactly one CPT and the salary bounds, and build
the `ShowdownLineupResult`. -/
def extractShowdown (entries : List ShowdownEntry) (params : ShowdownParameters)
    (ans : OracleAnswer) : Except String (List Nat × ShowdownLineupResult) :=
  let selected_idxs := (List.range entries.length).filter fun i => ans.selected.contains i
  if selected_idxs.length ≠ 6 then .error "assert: selected size must be 6"
  else
    let selected := selected_idxs.map fun i => entries.getD i default
    if selected.countP (fun e => e.role = "CPT") ≠ 1 then .error "assert: CPT count"
    else
      let total_salary := (selected.map fun e => e.salary).sum
      if ¬(params.min_salary ≤ total_salary ∧ total_salary ≤ 50000) then
        .error "assert: salary bounds"
      else
        .ok (selected_idxs,
          { entries := selected
            total_projection := (selected.map fun e => e.projection).sum
            total_salary := total_salary
            sum_ownership := (selected.map fun e => e.ownership).sum
            product_ownership := selected.foldl
              (fun acc e => acc * max e.ownership (1 / 1000000000)) 1
            weighted_ownership := (selected.map fun e =>
              ((e.salary : ℚ) / 50000) * e.ownership).sum })

/-- The `while len(lineups) < target` loop of `generate_lineups_showdown`; the
no-good cut over the winning index set is `Σ x[i] ≤ 5` (set-based uniqueness,
FLEX positions indistinguishable). -/
def showdownLoop (entries : List ShowdownEntry) (params : ShowdownParameters)
    (oracle : Oracle) (target : Int) :
    Nat → List (List Nat) → List ShowdownLineupResult →
      Except String (List ShowdownLineupResult)
  | 0, _, acc => .ok acc
  | fuel + 1, cuts, acc =>
    if (acc.length : Int) < target then
      if (oracle cuts).status ≠ SolveStatus.optimal then .ok acc
      else
        match extractShowdown entries params (oracle cuts) with
        | .error e => .error e
        | .ok (selected_idxs, lineup) =>
          showdownLoop entries params oracle target fuel
            (cuts ++ [selected_idxs]) (acc ++ [lineup])
    else .ok acc

/-- Embedding of `generate_lineups_showdown(entries, params, max_lineups)`.  There
is no `validate` call; the required-players assertion fires while the model is
being built, before any solve. -/
def generate_lineups_showdown (entries : List ShowdownEntry)
    (params : ShowdownParameters) (oracle : Oracle)
    (max_lineups : Option Int := none) : Except String (List ShowdownLineupResult) :=
  if params.included_players.any (fun name => entries.all fun e => e.name ≠ name) then
    .error "assert: Included player not in pool"
  else
    showdownLoop entries params oracle (pyTargetCount max_lineups params.lineup_count)
      (pyTargetCount max_lineups params.lineup_count).toNat [] []

/-! ### C1: roster shape and salary bounds of every returned lineup -/

/-- The conditions the classic loop asserts defensively on every extracted lineup. -/
def GoodClassicLineup (params : Parameters) (lu : LineupResult) : Prop :=
  lu.players.length = 9 ∧
  pos_count lu.players "QB" = 1 ∧
  pos_count lu.players "DST" = 1 ∧
  2 ≤ pos_count lu.players "RB" ∧
  3 ≤ pos_count lu.players "WR" ∧
  1 ≤ pos_count lu.players "TE" ∧
  params.min_salary ≤ (lu.players.map fun p => p.salary).sum ∧
  (lu.players.map fun p => p.salary).sum ≤ 50000

/-- The conditions the showdown loop asserts defensively on every extracted lineup. -/
def GoodShowdownLineup (params : ShowdownParameters) (lu : ShowdownLineupResult) : Prop :=
  lu.entries.length = 6 ∧
  lu.entries.countP (fun e => e.role = "CPT") = 1 ∧
  params.min_salary ≤ (lu.entries.map fun e => e.salary).sum ∧
  (lu.entries.map fun e => e.salary).sum ≤ 50000

/-- What a successful classic extraction guarantees: the winning index set is the
canonical filter of the variable range, it has 9 members, the lineup lists exactly
the players at those indices, and all defensive assertions hold. -/
theorem extractClassic_ok (players : List Player) (params : Parameters)
    (ans : OracleAnswer) (idxs : List Nat) (lu : LineupResult)
    (h : extractClassic players params ans = .ok (idxs, lu)) :
    idxs = (List.range players.length).filter (fun i => ans.selected.contains i) ∧
    idxs.length = 9 ∧
    lu.players = idxs.map (fun i => players.getD i default) ∧
    GoodClassicLineup params lu := by
  unfold extractClassic at h
  dsimp only [] at h
  split at h
  · exact Except.noConfusion h
  split at h
  · exact Except.noConfusion h
  split at h
  · exact Except.noConfusion h
  split at h
  · exact Except.noConfusion h
  split at h
  · exact Except.noConfusion h
  split at h
  · exact Except.noConfusion h
  split at h
  · exact Except.noConfusion h
  split at h
  case h_1 => exact Except.noConfusion h
  case h_2 =>
  rename_i hlen hqb hdst hrb hwr hte hsal _scrut st heq
  simp only [Except.ok.injEq, Prod.mk.injEq] at h
  obtain ⟨h1, h2⟩ := h
  subst h1
  subst h2
  refine ⟨rfl, not_not.mp hlen, rfl, ?_, ?_, ?_, ?_, ?_, ?_, ?_, ?_⟩
  · simpa using not_not.mp hlen
  · exact not_not.mp hqb
  · exact not_not.mp hdst
  · exact Nat.le_of_not_lt hrb
  · exact Nat.le_of_not_lt hwr
  · exact Nat.le_of_not_lt hte
  · exact (not_not.mp hsal).1
  · exact (not_not.mp hsal).2

/-- Showdown analogue of `extractClassic_ok`. -/
theorem extractShowdown_ok (entries : List ShowdownEntry) (params : ShowdownParameters)
    (ans : OracleAnswer) (idxs : List Nat) (lu : ShowdownLineupResult)
    (h : extractShowdown entries params ans = .ok (idxs, lu)) :
    idxs = (List.range entries.length).filter (fun i => ans.selected.contains i) ∧
    idxs.length = 6 ∧
    lu.entries = idxs.map (fun i => entries.getD i default) ∧
    GoodShowdownLineup params lu := by
  unfold extractShowdown at h
  dsimp only [] at h
  split at h
  · exact Except.noConfusion h
  split at h
  · exact Except.noConfusion h
  split at h
  · exact Except.noConfusion h
  rename_i hlen hcpt hsal
  simp only [Except.ok.injEq, Prod.mk.injEq] at h
  obtain ⟨h1, h2⟩ := h
  subst h1
  subst h2
  refine ⟨rfl, not_not.mp hlen, rfl, ?_, ?_, ?_, ?_⟩
  · simpa using not_not.mp hlen
  · exact not_not.mp hcpt
  · exact (not_not.mp hsal).1
  · exact (not_not.mp hsal).2

/-- Every lineup in a successful output of the classic loop passes the defensive
assertions (the accumulator is only ever extended by lineups that passed them). -/
theorem enumLoop_good (players : List Player) (params : Parameters) (oracle : Oracle)
    (target : Int) :
    ∀ (fuel : Nat) (cuts : List (List Nat)) (acc ls : List LineupResult),
      (∀ lu ∈ acc, GoodClassicLineup params lu) →
      enumLoop players params oracle target fuel cuts acc = .ok ls →
      ∀ lu ∈ ls, GoodClassicLineup params lu := by
  intro fuel
  induction fuel with
  | zero =>
    intro cuts acc ls hacc h
    simp only [enumLoop] at h
    cases h
    exact hacc
  | succ fuel ih =>
    intro cuts acc ls hacc h
    simp only [enumLoop] at h
    split at h
    case isFalse => cases h; exact hacc
    split at h
    case isTrue => cases h; exact hacc
    split at h
    case h_1 => exact Except.noConfusion h
    case h_2 pair selected_idxs lineup heq =>
      refine ih _ _ _ ?_ h
      intro lu hm
      rcases List.mem_append.mp hm with hold | hnew
      · exact hacc lu hold
      · rcases List.mem_singleton.mp hnew with rfl
        exact (extractClassic_ok players params _ _ _ heq).2.2.2

/-- Showdown analogue of `enumLoop_good`. -/
theorem showdownLoop_good (entries : List ShowdownEntry) (params : ShowdownParameters)
    (oracle : Oracle) (target : Int) :
    ∀ (fuel : Nat) (cuts : List (List Nat)) (acc ls : List ShowdownLineupResult),
      (∀ lu ∈ acc, GoodShowdownLineup params lu) →
      showdownLoop entries params oracle target fuel cuts acc = .ok ls →
      ∀ lu ∈ ls, GoodShowdownLineup params lu := by
  intro fuel
  induction fuel with
  | zero =>
    intro cuts acc ls hacc h
    simp only [showdownLoop] at h
    cases h
    exact hacc
  | succ fuel ih =>
    intro cuts acc ls hacc h
    simp only [showdownLoop] at h
    split at h
    case isFalse => cases h; exact hacc
    split at h
    case isTrue => cases h; exact hacc
    split at h
    case h_1 => exact Except.noConfusion h
    case h_2 pair selected_idxs lineup heq =>
      refine ih _ _ _ ?_ h
      intro lu hm
      rcases List.mem_append.mp hm with hold | hnew
      · exact hacc lu hold
      · rcases List.mem_singleton.mp hnew with rfl
        exact (extractShowdown_ok entries params _ _ _ heq).2.2.2

/-- C1: every lineup returned by `generate_lineups` has exactly 9 players with
exactly 1 QB, exactly 1 DST, at least 2 RB, at least 3 WR and at least 1 TE, and
total salary within `[params.min_salary, 50000]`; every lineup returned by
`generate_lineups_showdown` has exactly 6 entries and total salary within the same
bounds. -/
theorem C1_roster_shape_and_salary_bounds :
    (∀ (players : List Player) (params : Parameters) (oracle : Oracle)
       (maxl : Option Int) (ls : List LineupResult),
       generate_lineups players params oracle maxl = .ok ls →
       ∀ lu ∈ ls,
         lu.players.length = 9 ∧
         pos_count lu.players "QB" = 1 ∧
         pos_count lu.players "DST" = 1 ∧
         2 ≤ pos_count lu.players "RB" ∧
         3 ≤ pos_count lu.players "WR" ∧
         1 ≤ pos_count lu.players "TE" ∧
         params.min_salary ≤ (lu.players.map fun p => p.salary).sum ∧
         (lu.players.map fun p => p.salary).sum ≤ 50000) ∧
    (∀ (entries : List ShowdownEntry) (params : ShowdownParameters) (oracle : Oracle)
       (maxl : Option Int) (ls : List ShowdownLineupResult),
       generate_lineups_showdown entries params oracle maxl = .ok ls →
       ∀ lu ∈ ls,
         lu.entries.length = 6 ∧
         params.min_salary ≤ (lu.entries.map fun e => e.salary).sum ∧
         (lu.entries.map fun e => e.salary).sum ≤ 50000) := by
  constructor
  · intro players params oracle maxl ls h lu hm
    unfold generate_lineups at h
    split at h
    · exact Except.noConfusion h
    split at h
    · exact Except.noConfusion h
    exact enumLoop_good players params oracle _ _ _ _ _ (by simp) h lu hm
  · intro entries params oracle maxl ls h lu hm
    unfold generate_lineups_showdown at h
    split at h
    · exact Except.noConfusion h
    have := showdownLoop_good entries params oracle _ _ _ _ _ (by simp) h lu hm
    exact ⟨this.1, this.2.2.1, this.2.2.2⟩

/-- Helper to build classic pool players in concrete runs. -/
def mkP (name team opp pos : String) (sal : Int) : Player :=
  { name := name, team := team, opponent := opp, position := pos,
    salary := sal, projection := 10, ownership := 1 / 10 }

/-- Helper to build showdown entries in concrete runs. -/
def mkE (name team opp pos role : String) (sal : Int) : ShowdownEntry :=
  { name := name, team := team, opponent := opp, position := pos, role := role,
    salary := sal, projection := 10, ownership := 1 / 10 }

/-- A concrete 10-player classic pool. -/
def c1Pool : List Player :=
  [ mkP "qa" "AA" "BB" "QB" 5000
  , mkP "rb1" "AA" "BB" "RB" 5000
  , mkP "rb2" "BB" "AA" "RB" 5000
  , mkP "wa" "AA" "BB" "WR" 5000
  , mkP "wb" "AA" "BB" "WR" 5000
  , mkP "wc" "BB" "AA" "WR" 5000
  , mkP "ta" "AA" "BB" "TE" 5000
  , mkP "da" "BB" "AA" "DST" 5000
  , mkP "wd" "BB" "AA" "WR" 5000
  , mkP "rb3" "AA" "BB" "RB" 5000 ]

def c1Params : Parameters := { lineup_count := 1, allow_qb_vs_dst := true }

/-- A concrete oracle: one optimal answer, then infeasible. -/
def c1Oracle : Oracle := fun cuts =>
  match cuts with
  | [] => ⟨SolveStatus.optimal, [0, 1, 2, 3, 4, 5, 6, 7, 8]⟩
  | _ => ⟨SolveStatus.infeasible, []⟩

/-- The lineups the concrete classic run produces. -/
def c1Run : List LineupResult :=
  ((generate_lineups c1Pool c1Params c1Oracle none).toOption).getD []

/-- A concrete 8-entry showdown pool (2 CPT variants, 6 FLEX). -/
def c1PoolS : List ShowdownEntry :=
  [ mkE "qa" "AA" "BB" "QB" "CPT" 6000
  , mkE "wa" "AA" "BB" "WR" "FLEX" 5000
  , mkE "wb" "AA" "BB" "WR" "FLEX" 5000
  , mkE "wc" "BB" "AA" "WR" "FLEX" 5000
  , mkE "rb1" "AA" "BB" "RB" "FLEX" 5000
  , mkE "da" "BB" "AA" "DST" "FLEX" 5000
  , mkE "wa" "AA" "BB" "WR" "CPT" 7500
  , mkE "qa" "AA" "BB" "QB" "FLEX" 4000
  , mkE "te1" "AA" "BB" "TE" "FLEX" 5000 ]

def c1ParamsS : ShowdownParameters := { lineup_count := 1, min_salary := 0 }

def c1OracleS : Oracle := fun cuts =>
  match cuts with
  | [] => ⟨SolveStatus.optimal, [0, 1, 2, 3, 4, 5]⟩
  | _ => ⟨SolveStatus.infeasible, []⟩

/-- The lineups the concrete showdown run produces. -/
def c1RunS : List ShowdownLineupResult :=
  ((generate_lineups_showdown c1PoolS c1ParamsS c1OracleS none).toOption).getD []

instance : Inhabited LineupResult := ⟨⟨[], 0, 0, 0, 0, 0, [], 0, "", 0, [], false⟩⟩

instance : Inhabited ShowdownLineupResult := ⟨⟨[], 0, 0, 0, 0, 0⟩⟩

/-- Witness for C1: the roster-shape and salary conclusions instantiated on the
first lineup of concrete classic and showdown runs, with every hypothesis
discharged by evaluation. -/
theorem C1_witness :
    (c1Run.head!).players.length = 9 ∧
    pos_count (c1Run.head!).players "QB" = 1 ∧
    pos_count (c1Run.head!).players "DST" = 1 ∧
    2 ≤ pos_count (c1Run.head!).players "RB" ∧
    3 ≤ pos_count (c1Run.head!).players "WR" ∧
    1 ≤ pos_count (c1Run.head!).players "TE" ∧
    c1Params.min_salary ≤ ((c1Run.head!).players.map fun p => p.salary).sum ∧
    ((c1Run.head!).players.map fun p => p.salary).sum ≤ 50000 ∧
    (c1RunS.head!).entries.length = 6 ∧
    c1ParamsS.min_salary ≤ ((c1RunS.head!).entries.map fun e => e.salary).sum ∧
    ((c1RunS.head!).entries.map fun e => e.salary).sum ≤ 50000 := by
  have h1 := C1_roster_shape_and_salary_bounds.1 c1Pool c1Params c1Oracle none c1Run
    (by rfl) (c1Run.head!) (List.head!_mem_self (by decide))
  have h2 := C1_roster_shape_and_salary_bounds.2 c1PoolS c1ParamsS c1OracleS none
    c1RunS (by rfl) (c1RunS.head!) (List.head!_mem_self (by decide))
  exact ⟨h1.1, h1.2.1, h1.2.2.1, h1.2.2.2.1, h1.2.2.2.2.1, h1.2.2.2.2.2.1,
    h1.2.2.2.2.2.2.1, h1.2.2.2.2.2.2.2, h2.1, h2.2.1, h2.2.2⟩

/-! ### C7: oracle infeasibility is normal termination -/

/-- A non-optimal status makes the classic loop return exactly what it has
collected so far, whatever the fuel. -/
theorem enumLoop_stops_on_non_optimal (players : List Player) (params : Parameters)
    (oracle : Oracle) (target : Int) (fuel : Nat) (cuts : List (List Nat))
    (acc : List LineupResult)
    (hstat : (oracle cuts).status ≠ SolveStatus.optimal) :
    enumLoop players params oracle target fuel cuts acc = .ok acc := by
  cases fuel with
  | zero => rfl
  | succ n =>
    simp only [enumLoop]
    split <;> simp [hstat]

/-- Showdown analogue of `enumLoop_stops_on_non_optimal`. -/
theorem showdownLoop_stops_on_non_optimal (entries : List ShowdownEntry)
    (params : ShowdownParameters) (oracle : Oracle) (target : Int) (fuel : Nat)
    (cuts : List (List Nat)) (acc : List ShowdownLineupResult)
    (hstat : (oracle cuts).status ≠ SolveStatus.optimal) :
    showdownLoop entries params oracle target fuel cuts acc = .ok acc := by
  cases fuel with
  | zero => rfl
  | succ n =>
    simp only [showdownLoop]
    split <;> simp [hstat]

/-- An oracle whose optimal answers satisfy the showdown model constraint
`Σ projection·x ≥ m` (added when `params.min_sum_projection` is set). -/
def RespectsMinSumProjection (oracle : Oracle) (entries : List ShowdownEntry)
    (m : ℚ) : Prop :=
  ∀ cuts, (oracle cuts).status = SolveStatus.optimal →
    m ≤ ((((List.range entries.length).filter fun i =>
            (oracle cuts).selected.contains i).map
          fun i => (entries.getD i default).projection)).sum

/-- Any sub-selection of projections is bounded by the sum of the clamped-positive
projections of the whole list. -/
theorem sum_filter_le_sum_posClamp (f : Nat → ℚ) (p : Nat → Bool) (l : List Nat) :
    ((l.filter p).map f).sum ≤ (l.map fun i => max (f i) 0).sum := by
  induction l with
  | nil => simp
  | cons a t ih =>
    simp only [List.filter_cons, List.map_cons, List.sum_cons]
    by_cases h : p a = true
    · rw [if_pos h]
      simp only [List.map_cons, List.sum_cons]
      have hle : f a ≤ max (f a) 0 := le_max_left _ _
      linarith
    · rw [if_neg h]
      have hle : (0 : ℚ) ≤ max (f a) 0 := le_max_right _ _
      linarith

/-- C7: a non-optimal status on any solve (including the first) is normal
termination — the loop hands back exactly the lineups already collected, the
top-level call returns `.ok` (no exception); and with a sound oracle an
unreachable `min_sum_projection` (above the sum of all positive projections of the
showdown pool) yields `.ok []`.  (In the classic optimizer the `min_sum_projection`
parameter is never encoded, so the showdown model is where the unreachable-bound
case arises.) -/
theorem C7_infeasibility_is_normal_termination :
    (∀ (players : List Player) (params : Parameters) (oracle : Oracle)
       (maxl : Option Int),
       params.validate = true →
       (∀ name ∈ params.included_players, ∃ p ∈ players, p.name = name) →
       (oracle []).status ≠ SolveStatus.optimal →
       generate_lineups players params oracle maxl = .ok []) ∧
    (∀ (players : List Player) (params : Parameters) (oracle : Oracle)
       (target : Int) (fuel : Nat) (cuts : List (List Nat)) (acc : List LineupResult),
       (oracle cuts).status ≠ SolveStatus.optimal →
       enumLoop players params oracle target fuel cuts acc = .ok acc) ∧
    (∀ (entries : List ShowdownEntry) (params : ShowdownParameters) (oracle : Oracle)
       (maxl : Option Int) (m : ℚ),
       (∀ name ∈ params.included_players, ∃ e ∈ entries, e.name = name) →
       params.min_sum_projection = some m →
       RespectsMinSumProjection oracle entries m →
       ((List.range entries.length).map fun i =>
         max (entries.getD i default).projection 0).sum < m →
       generate_lineups_showdown entries params oracle maxl = .ok []) := by
  refine ⟨?_, ?_, ?_⟩
  · intro players params oracle maxl hv hincl hstat
    unfold generate_lineups
    rw [if_neg (by simp [hv])]
    rw [if_neg ?hc]
    case hc =>
      simp only [List.any_eq_true, List.all_eq_true, not_exists]
      push_neg
      intro name hname
      obtain ⟨p, hp, he⟩ := hincl name hname
      exact ⟨p, hp, by simp [he]⟩
    exact enumLoop_stops_on_non_optimal _ _ _ _ _ _ _ hstat
  · intro players params oracle target fuel cuts acc hstat
    exact enumLoop_stops_on_non_optimal _ _ _ _ _ _ _ hstat
  · intro entries params oracle maxl m hincl _hm hsound hmax
    have hstat : (oracle []).status ≠ SolveStatus.optimal := by
      intro hopt
      have h1 := hsound [] hopt
      have h2 := sum_filter_le_sum_posClamp
        (fun i => (entries.getD i default).projection)
        (fun i => (oracle []).selected.contains i) (List.range entries.length)
      exact absurd (le_trans h1 h2) (not_le.mpr hmax)
    unfold generate_lineups_showdown
    rw [if_neg ?hc2]
    case hc2 =>
      simp only [List.any_eq_true, List.all_eq_true, not_exists]
      push_neg
      intro name hname
      obtain ⟨e, he, hn⟩ := hincl name hname
      exact ⟨e, he, by simp [hn]⟩
    exact showdownLoop_stops_on_non_optimal _ _ _ _ _ _ _ hstat

/-- An oracle that always reports infeasibility. -/
def c7Oracle : Oracle := fun _ => ⟨SolveStatus.infeasible, []⟩

/-- Showdown parameters with an unreachable aggregate-projection lower bound. -/
def c7ParamsS : ShowdownParameters :=
  { lineup_count := 5, min_salary := 0, min_sum_projection := some 500 }

/-- Witness for C7: all three conclusions instantiated on concrete inputs, each
hypothesis discharged by evaluation. -/
theorem C7_witness :
    generate_lineups c1Pool c1Params c7Oracle none = .ok [] ∧
    enumLoop c1Pool c1Params c7Oracle 5 3 [] [] = .ok [] ∧
    generate_lineups_showdown c1PoolS c7ParamsS c7Oracle none = .ok [] :=
  ⟨C7_infeasibility_is_normal_termination.1 c1Pool c1Params c7Oracle none
      (by decide) (by simp [c1Params]) (by decide),
   C7_infeasibility_is_normal_termination.2.1 c1Pool c1Params c7Oracle 5 3 [] []
      (by decide),
   C7_infeasibility_is_normal_termination.2.2 c1PoolS c7ParamsS c7Oracle none 500
      (by simp [c7ParamsS]) (by rfl)
      (by intro cuts h; simp [c7Oracle] at h)
      (by
        simp only [c1PoolS, mkE, List.range_succ, List.range_zero, List.map_append,
          List.map_cons, List.map_nil, List.sum_append, List.sum_cons, List.sum_nil,
          List.length_cons, List.length_nil]
        norm_num)⟩

/-! ### C3: treatment of time-limited feasible oracle answers -/

/-- An oracle whose wall-clock limit always stops it with a feasible incumbent:
the answer carries the `timeLimitReached` status together with a 0/1 assignment
that satisfies every roster constraint of the concrete pool `c1Pool`. -/
def c3OracleTL : Oracle := fun _ =>
  ⟨SolveStatus.timeLimitReached, [0, 1, 2, 3, 4, 5, 6, 7, 8]⟩

/-- Counterexample to C3: on the very same pool and assignment, a proven-optimal
status yields one extracted lineup while the time-limited feasible status ends the
loop with no lineup extracted — the two are not treated identically. -/
theorem C3_counterexample :
    generate_lineups c1Pool c1Params c3OracleTL none = .ok [] ∧
    (generate_lineups c1Pool c1Params c1Oracle none).map (fun ls => ls.length) =
      .ok 1 :=
  ⟨by rfl, by rfl⟩

/-- C3 (amended): the enumeration loop extracts an assignment only when the oracle
reports proven optimality; a feasible-but-not-proven-optimal answer produced by
hitting the wall-clock limit carries a status different from `optimal`, so the loop
terminates and returns the lineups already collected, extracting nothing from the
incumbent. -/
theorem C3_amended_time_limit_ends_enumeration :
    (∀ (players : List Player) (params : Parameters) (oracle : Oracle)
       (target : Int) (fuel : Nat) (cuts : List (List Nat)) (acc : List LineupResult),
       (oracle cuts).status = SolveStatus.timeLimitReached →
       enumLoop players params oracle target fuel cuts acc = .ok acc) ∧
    (∀ (entries : List ShowdownEntry) (params : ShowdownParameters) (oracle : Oracle)
       (target : Int) (fuel : Nat) (cuts : List (List Nat))
       (acc : List ShowdownLineupResult),
       (oracle cuts).status = SolveStatus.timeLimitReached →
       showdownLoop entries params oracle target fuel cuts acc = .ok acc) := by
  constructor
  · intro players params oracle target fuel cuts acc h
    exact enumLoop_stops_on_non_optimal _ _ _ _ _ _ _ (by rw [h]; exact nofun)
  · intro entries params oracle target fuel cuts acc h
    exact showdownLoop_stops_on_non_optimal _ _ _ _ _ _ _ (by rw [h]; exact nofun)

/-- Witness for the amended C3, instantiated on concrete runs. -/
theorem C3_amended_witness :
    enumLoop c1Pool c1Params c3OracleTL 5 2 [] [] = .ok [] ∧
    showdownLoop c1PoolS c1ParamsS c3OracleTL 5 2 [] [] = .ok [] :=
  ⟨C3_amended_time_limit_ends_enumeration.1 c1Pool c1Params c3OracleTL 5 2 [] []
      (by rfl),
   C3_amended_time_limit_ends_enumeration.2 c1PoolS c1ParamsS c3OracleTL 5 2 [] []
      (by rfl)⟩

/-! ### C2: distinctness of enumerated lineups -/

/-- An oracle that respects the accumulated no-good cuts: whenever it reports an
optimal solution, its assignment re-selects at most `bound` members of any recorded
winning index set (`Σ x over the set ≤ size − 1` in the model). -/
def CutRespecting (oracle : Oracle) (bound : Nat) : Prop :=
  ∀ (cuts : List (List Nat)) (c : List Nat), c ∈ cuts →
    (oracle cuts).status = SolveStatus.optimal →
    (c.filter fun i => (oracle cuts).selected.contains i).length ≤ bound

/-- Canonical shape of a recorded winning index set of size `k` over `n` variables:
strictly sorted (it is a filter of `range n`), of the asserted size, in range. -/
def GoodCut (n k : Nat) (c : List Nat) : Prop :=
  c.Sorted (· < ·) ∧ c.length = k ∧ ∀ i ∈ c, i < n

/-- A filter of `List.range n` of the asserted length is a `GoodCut`. -/
theorem goodCut_of_filter (n k : Nat) (p : Nat → Bool)
    (hlen : ((List.range n).filter p).length = k) :
    GoodCut n k ((List.range n).filter p) := by
  refine ⟨(List.sorted_lt_range n).filter p, hlen, ?_⟩
  intro i hi
  exact List.mem_range.mp (List.mem_of_mem_filter hi)

/-- Transfer of membership between index lists whose images in a duplicate-free
pool have the same member set. -/
theorem mem_of_map_toFinset_eq {α : Type} [DecidableEq α] [Inhabited α]
    (xs : List α) (hnd : xs.Nodup) (c d : List Nat)
    (hc : ∀ i ∈ c, i < xs.length) (hd : ∀ i ∈ d, i < xs.length)
    (h : (c.map fun i => xs.getD i default).toFinset =
         (d.map fun i => xs.getD i default).toFinset)
    (i : Nat) (hi : i ∈ c) : i ∈ d := by
  have h1 : xs.getD i default ∈ (c.map fun i => xs.getD i default).toFinset := by
    simp only [List.mem_toFinset, List.mem_map]
    exact ⟨i, hi, rfl⟩
  rw [h] at h1
  simp only [List.mem_toFinset, List.mem_map] at h1
  obtain ⟨j, hj, hje⟩ := h1
  have hilt := hc i hi
  have hjlt := hd j hj
  rw [List.getD_eq_getElem xs default hjlt, List.getD_eq_getElem xs default hilt] at hje
  rw [hnd.getElem_inj_iff] at hje
  rw [hje] at hj
  exact hj

/-- Two strictly sorted in-range index lists with the same image set in a
duplicate-free pool are equal. -/
theorem idx_eq_of_map_toFinset_eq {α : Type} [DecidableEq α] [Inhabited α]
    (xs : List α) (hnd : xs.Nodup) (c d : List Nat)
    (hc : ∀ i ∈ c, i < xs.length) (hd : ∀ i ∈ d, i < xs.length)
    (hsc : c.Sorted (· < ·)) (hsd : d.Sorted (· < ·))
    (h : (c.map fun i => xs.getD i default).toFinset =
         (d.map fun i => xs.getD i default).toFinset) : c = d := by
  have hmem : ∀ i, i ∈ c ↔ i ∈ d := fun i =>
    ⟨mem_of_map_toFinset_eq xs hnd c d hc hd h i,
     mem_of_map_toFinset_eq xs hnd d c hd hc h.symm i⟩
  have hperm : c.Perm d :=
    (List.perm_ext_iff_of_nodup hsc.nodup hsd.nodup).mpr hmem
  exact List.eq_of_perm_of_sorted hperm hsc.le_of_lt hsd.le_of_lt

/-- Classic loop invariant: with a cut-respecting oracle and a duplicate-free pool,
the collected lineups (each recorded by its cut) stay pairwise distinct as
member-entry sets. -/
theorem enumLoop_pairwise (players : List Player) (params : Parameters)
    (oracle : Oracle) (target : Int) (hnd : players.Nodup)
    (hcr : CutRespecting oracle 8) :
    ∀ (fuel : Nat) (cuts : List (List Nat)) (acc ls : List LineupResult),
      (∀ c ∈ cuts, GoodCut players.length 9 c) →
      (∀ lu ∈ acc, ∃ c ∈ cuts, lu.players = c.map fun i => players.getD i default) →
      acc.Pairwise (fun a b => a.players.toFinset ≠ b.players.toFinset) →
      enumLoop players params oracle target fuel cuts acc = .ok ls →
      ls.Pairwise (fun a b => a.players.toFinset ≠ b.players.toFinset) := by
  intro fuel
  induction fuel with
  | zero =>
    intro cuts acc ls _ _ hpair h
    simp only [enumLoop] at h
    cases h
    exact hpair
  | succ fuel ih =>
    intro cuts acc ls hcuts hacc hpair h
    simp only [enumLoop] at h
    split at h
    case isFalse => cases h; exact hpair
    split at h
    case isTrue => cases h; exact hpair
    case isFalse hstatus =>
    split at h
    case h_1 => exact Except.noConfusion h
    case h_2 pair selected_idxs lineup heq =>
      have hopt : (oracle cuts).status = SolveStatus.optimal := not_not.mp hstatus
      obtain ⟨hidx, hlen9, hpl, _⟩ := extractClassic_ok players params _ _ _ heq
      have hgc : GoodCut players.length 9 selected_idxs := by
        rw [hidx]
        exact goodCut_of_filter _ _ _ (hidx ▸ hlen9)
      have hsel : ∀ i ∈ selected_idxs, ((oracle cuts).selected.contains i) = true := by
        intro i hi
        rw [hidx] at hi
        exact List.of_mem_filter hi
      refine ih (cuts ++ [selected_idxs]) (acc ++ [lineup]) ls ?_ ?_ ?_ h
      · intro c hc
        rcases List.mem_append.mp hc with hc1 | hc2
        · exact hcuts c hc1
        · rcases List.mem_singleton.mp hc2 with rfl
          exact hgc
      · intro lu hm
        rcases List.mem_append.mp hm with h1 | h2
        · obtain ⟨c, hc, hcm⟩ := hacc lu h1
          exact ⟨c, List.mem_append_left _ hc, hcm⟩
        · rcases List.mem_singleton.mp h2 with rfl
          exact ⟨selected_idxs, List.mem_append_right _ (List.mem_singleton_self _), hpl⟩
      · rw [List.pairwise_append]
        refine ⟨hpair, List.pairwise_singleton _ _, ?_⟩
        intro a ha b hb
        rcases List.mem_singleton.mp hb with rfl
        obtain ⟨c, hc, hcm⟩ := hacc a ha
        obtain ⟨hcs, hclen, hcb⟩ := hcuts c hc
        intro hFeq
        have hceq : c = selected_idxs := by
          refine idx_eq_of_map_toFinset_eq players hnd c selected_idxs hcb hgc.2.2
            hcs hgc.1 ?_
          rw [← hcm, ← hpl]
          exact hFeq
        have hcut := hcr cuts c hc hopt
        rw [hceq] at hcut
        rw [List.filter_eq_self.mpr hsel] at hcut
        rw [hlen9] at hcut
        omega

/-- Showdown analogue of `enumLoop_pairwise` (cut bound `5`, roster size 6). -/
theorem showdownLoop_pairwise (entries : List ShowdownEntry)
    (params : ShowdownParameters) (oracle : Oracle) (target : Int)
    (hnd : entries.Nodup) (hcr : CutRespecting oracle 5) :
    ∀ (fuel : Nat) (cuts : List (List Nat)) (acc ls : List ShowdownLineupResult),
      (∀ c ∈ cuts, GoodCut entries.length 6 c) →
      (∀ lu ∈ acc, ∃ c ∈ cuts, lu.entries = c.map fun i => entries.getD i default) →
      acc.Pairwise (fun a b => a.entries.toFinset ≠ b.entries.toFinset) →
      showdownLoop entries params oracle target fuel cuts acc = .ok ls →
      ls.Pairwise (fun a b => a.entries.toFinset ≠ b.entries.toFinset) := by
  intro fuel
  induction fuel with
  | zero =>
    intro cuts acc ls _ _ hpair h
    simp only [showdownLoop] at h
    cases h
    exact hpair
  | succ fuel ih =>
    intro cuts acc ls hcuts hacc hpair h
    simp only [showdownLoop] at h
    split at h
    case isFalse => cases h; exact hpair
    split at h
    case isTrue => cases h; exact hpair
    case isFalse hstatus =>
    split at h
    case h_1 => exact Except.noConfusion h
    case h_2 pair selected_idxs lineup heq =>
      have hopt : (oracle cuts).status = SolveStatus.optimal := not_not.mp hstatus
      obtain ⟨hidx, hlen6, hpl, _⟩ := extractShowdown_ok entries params _ _ _ heq
      have hgc : GoodCut entries.length 6 selected_idxs := by
        rw [hidx]
        exact goodCut_of_filter _ _ _ (hidx ▸ hlen6)
      have hsel : ∀ i ∈ selected_idxs, ((oracle cuts).selected.contains i) = true := by
        intro i hi
        rw [hidx] at hi
        exact List.of_mem_filter hi
      refine ih (cuts ++ [selected_idxs]) (acc ++ [lineup]) ls ?_ ?_ ?_ h
      · intro c hc
        rcases List.mem_append.mp hc with hc1 | hc2
        · exact hcuts c hc1
        · rcases List.mem_singleton.mp hc2 with rfl
          exact hgc
      · intro lu hm
        rcases List.mem_append.mp hm with h1 | h2
        · obtain ⟨c, hc, hcm⟩ := hacc lu h1
          exact ⟨c, List.mem_append_left _ hc, hcm⟩
        · rcases List.mem_singleton.mp h2 with rfl
          exact ⟨selected_idxs, List.mem_append_right _ (List.mem_singleton_self _), hpl⟩
      · rw [List.pairwise_append]
        refine ⟨hpair, List.pairwise_singleton _ _, ?_⟩
        intro a ha b hb
        rcases List.mem_singleton.mp hb with rfl
        obtain ⟨c, hc, hcm⟩ := hacc a ha
        obtain ⟨hcs, hclen, hcb⟩ := hcuts c hc
        intro hFeq
        have hceq : c = selected_idxs := by
          refine idx_eq_of_map_toFinset_eq entries hnd c selected_idxs hcb hgc.2.2
            hcs hgc.1 ?_
          rw [← hcm, ← hpl]
          exact hFeq
        have hcut := hcr cuts c hc hopt
        rw [hceq] at hcut
        rw [List.filter_eq_self.mpr hsel] at hcut
        rw [hlen6] at hcut
        omega

/-- C2 (amended): with an oracle that honours the no-good cuts, no two lineups of
one enumerated run share an identical winning index set, hence — whenever the pool
contains no duplicate entry — no two share an identical member-entry set.  (As
stated over member-entry sets alone the claim fails for pools that contain the
same entry value at two indices, since the cut constrains indices, not values.) -/
theorem C2_amended_no_two_lineups_share_member_set :
    (∀ (players : List Player) (params : Parameters) (oracle : Oracle)
       (maxl : Option Int) (ls : List LineupResult),
       players.Nodup → CutRespecting oracle 8 →
       generate_lineups players params oracle maxl = .ok ls →
       ls.Pairwise fun a b => a.players.toFinset ≠ b.players.toFinset) ∧
    (∀ (entries : List ShowdownEntry) (params : ShowdownParameters) (oracle : Oracle)
       (maxl : Option Int) (ls : List ShowdownLineupResult),
       entries.Nodup → CutRespecting oracle 5 →
       generate_lineups_showdown entries params oracle maxl = .ok ls →
       ls.Pairwise fun a b => a.entries.toFinset ≠ b.entries.toFinset) := by
  constructor
  · intro players params oracle maxl ls hnd hcr h
    unfold generate_lineups at h
    split at h
    · exact Except.noConfusion h
    split at h
    · exact Except.noConfusion h
    exact enumLoop_pairwise players params oracle _ hnd hcr _ _ _ _
      (by simp) (by simp) (by simp) h
  · intro entries params oracle maxl ls hnd hcr h
    unfold generate_lineups_showdown at h
    split at h
    · exact Except.noConfusion h
    exact showdownLoop_pairwise entries params oracle _ hnd hcr _ _ _ _
      (by simp) (by simp) (by simp) h

/-- A duplicated pool entry: the same player value at two distinct indices. -/
def c2dup : Player := mkP "wdup" "AA" "BB" "WR" 5000

/-- A pool holding the same entry value at indices 0 and 1. -/
def c2Pool : List Player :=
  [ c2dup
  , c2dup
  , mkP "qa" "AA" "BB" "QB" 5000
  , mkP "rb1" "AA" "BB" "RB" 5000
  , mkP "rb2" "BB" "AA" "RB" 5000
  , mkP "wb" "AA" "BB" "WR" 5000
  , mkP "wc" "BB" "AA" "WR" 5000
  , mkP "ta" "AA" "BB" "TE" 5000
  , mkP "da" "BB" "AA" "DST" 5000
  , mkP "rb3" "AA" "BB" "RB" 5000 ]

def c2Params : Parameters := { lineup_count := 2, allow_qb_vs_dst := true }

/-- An oracle returning two valid optimal solutions that differ only in which copy
of the duplicated entry they pick; the second solution re-selects only 8 members of
the first winning index set, so it satisfies the no-good cut `Σ x ≤ 8`. -/
def c2Oracle : Oracle := fun cuts =>
  match cuts with
  | [] => ⟨SolveStatus.optimal, [0, 2, 3, 4, 5, 6, 7, 8, 9]⟩
  | [_] => ⟨SolveStatus.optimal, [1, 2, 3, 4, 5, 6, 7, 8, 9]⟩
  | _ => ⟨SolveStatus.infeasible, []⟩

/-- The common member-entry list of both returned lineups of the `c2` run. -/
def c2Players : List Player :=
  [ c2dup
  , mkP "qa" "AA" "BB" "QB" 5000
  , mkP "rb1" "AA" "BB" "RB" 5000
  , mkP "rb2" "BB" "AA" "RB" 5000
  , mkP "wb" "AA" "BB" "WR" 5000
  , mkP "wc" "BB" "AA" "WR" 5000
  , mkP "ta" "AA" "BB" "TE" 5000
  , mkP "da" "BB" "AA" "DST" 5000
  , mkP "rb3" "AA" "BB" "RB" 5000 ]

/-- Counterexample to C2 as stated: one run returns two lineups with literally the
same member-entry list (hence identical member-entry sets), because the no-good cut
constrains winning index sets, not entry values; the second conjunct checks that
the second solution does satisfy the cut `Σ x over the first winning set ≤ 8`. -/
theorem C2_counterexample :
    (generate_lineups c2Pool c2Params c2Oracle none).map
        (fun ls => ls.map fun lu => lu.players) = .ok [c2Players, c2Players] ∧
    ((([0, 2, 3, 4, 5, 6, 7, 8, 9] : List Nat).filter fun i =>
        (([1, 2, 3, 4, 5, 6, 7, 8, 9] : List Nat).contains i)).length ≤ 8) :=
  ⟨by rfl, by decide⟩

def c2wParams : Parameters := { lineup_count := 2, allow_qb_vs_dst := true }

/-- A cut-respecting oracle over the duplicate-free pool `c1Pool`: it offers a
second optimal solution only after checking it against the recorded cut. -/
def c2wOracle : Oracle := fun cuts =>
  match cuts with
  | [] => ⟨SolveStatus.optimal, [0, 1, 2, 3, 4, 5, 6, 7, 8]⟩
  | [c] =>
    if (c.filter fun i =>
        (([0, 1, 2, 3, 4, 5, 6, 7, 9] : List Nat).contains i)).length ≤ 8 then
      ⟨SolveStatus.optimal, [0, 1, 2, 3, 4, 5, 6, 7, 9]⟩
    else ⟨SolveStatus.infeasible, []⟩
  | _ => ⟨SolveStatus.infeasible, []⟩

theorem c2wOracle_cutRespecting : CutRespecting c2wOracle 8 := by
  intro cuts c hc hst
  match cuts with
  | [] => exact absurd hc (List.not_mem_nil c)
  | [c0] =>
    rcases List.mem_singleton.mp hc with rfl
    simp only [c2wOracle] at hst ⊢
    split at hst
    · rename_i hcheck
      rw [if_pos hcheck]
      simpa using hcheck
    · exact absurd hst (by simp)
  | c0 :: c1 :: rest =>
    simp only [c2wOracle] at hst
    exact absurd hst (by simp)

/-- The two lineups of the concrete duplicate-free classic run. -/
def c2wRun : List LineupResult :=
  ((generate_lineups c1Pool c2wParams c2wOracle none).toOption).getD []

def c2wParamsS : ShowdownParameters := { lineup_count := 2, min_salary := 0 }

/-- Showdown analogue of `c2wOracle` over `c1PoolS` (cut bound 5). -/
def c2wOracleS : Oracle := fun cuts =>
  match cuts with
  | [] => ⟨SolveStatus.optimal, [0, 1, 2, 3, 4, 5]⟩
  | [c] =>
    if (c.filter fun i =>
        (([0, 1, 2, 3, 4, 8] : List Nat).contains i)).length ≤ 5 then
      ⟨SolveStatus.optimal, [0, 1, 2, 3, 4, 8]⟩
    else ⟨SolveStatus.infeasible, []⟩
  | _ => ⟨SolveStatus.infeasible, []⟩

theorem c2wOracleS_cutRespecting : CutRespecting c2wOracleS 5 := by
  intro cuts c hc hst
  match cuts with
  | [] => exact absurd hc (List.not_mem_nil c)
  | [c0] =>
    rcases List.mem_singleton.mp hc with rfl
    simp only [c2wOracleS] at hst ⊢
    split at hst
    · rename_i hcheck
      rw [if_pos hcheck]
      simpa using hcheck
    · exact absurd hst (by simp)
  | c0 :: c1 :: rest =>
    simp only [c2wOracleS] at hst
    exact absurd hst (by simp)

/-- The two lineups of the concrete showdown run. -/
def c2wRunS : List ShowdownLineupResult :=
  ((generate_lineups_showdown c1PoolS c2wParamsS c2wOracleS none).toOption).getD []

/-- Witness for the amended C2: two concrete two-lineup runs with duplicate-free
pools and cut-respecting oracles; all hypotheses discharged concretely. -/
theorem C2_witness :
    c2wRun.length = 2 ∧
    c2wRun.Pairwise (fun a b => a.players.toFinset ≠ b.players.toFinset) ∧
    c2wRunS.length = 2 ∧
    c2wRunS.Pairwise (fun a b => a.entries.toFinset ≠ b.entries.toFinset) :=
  ⟨by rfl,
   C2_amended_no_two_lineups_share_member_set.1 c1Pool c2wParams c2wOracle none
     c2wRun (by decide) c2wOracle_cutRespecting (by rfl),
   by rfl,
   C2_amended_no_two_lineups_share_member_set.2 c1PoolS c2wParamsS c2wOracleS none
     c2wRunS (by decide) c2wOracleS_cutRespecting (by rfl)⟩

/-! ### C10: showdown CPT/FLEX structure and base-identity exclusivity -/

/-- An oracle whose optimal assignments satisfy the showdown model constraints
`Σ x over each name-and-team base-identity group ≤ 1` (CPT and FLEX variants of
one underlying player are mutually exclusive). -/
def RespectsBaseExclusivity (oracle : Oracle) (entries : List ShowdownEntry) : Prop :=
  ∀ cuts, (oracle cuts).status = SolveStatus.optimal →
    ∀ k : String,
      (((List.range entries.length).filter fun i =>
          (oracle cuts).selected.contains i).countP
        fun i => base_key (entries.getD i default) = k) ≤ 1

/-- If the images of a list under `f` are pairwise distinct, at most one element
maps to any given value. -/
theorem countP_le_one_of_nodup_map {α β : Type} [DecidableEq β] (l : List α)
    (f : α → β) (h : (l.map f).Nodup) (k : β) :
    l.countP (fun x => f x = k) ≤ 1 := by
  induction l with
  | nil => simp
  | cons a t ih =>
    simp only [List.map_cons, List.nodup_cons] at h
    rw [List.countP_cons]
    by_cases ha : f a = k
    · have hz : t.countP (fun x => f x = k) = 0 := by
        rw [List.countP_eq_zero]
        intro x hx
        simp only [decide_eq_true_eq]
        intro hxk
        have hfa : f a = f x := by rw [ha, hxk]
        exact h.1 (hfa ▸ List.mem_map_of_mem f hx)
      simp [hz, ha]
    · simp only [ha, decide_eq_true_eq, if_neg]
      simpa using ih h.2

/-- Showdown loop invariant for base-identity exclusivity under a sound oracle. -/
theorem showdownLoop_base_exclusive (entries : List ShowdownEntry)
    (params : ShowdownParameters) (oracle : Oracle) (target : Int)
    (hbe : RespectsBaseExclusivity oracle entries) :
    ∀ (fuel : Nat) (cuts : List (List Nat)) (acc ls : List ShowdownLineupResult),
      (∀ lu ∈ acc, ∀ k, (lu.entries.countP fun e => base_key e = k) ≤ 1) →
      showdownLoop entries params oracle target fuel cuts acc = .ok ls →
      ∀ lu ∈ ls, ∀ k, (lu.entries.countP fun e => base_key e = k) ≤ 1 := by
  intro fuel
  induction fuel with
  | zero =>
    intro cuts acc ls hacc h
    simp only [showdownLoop] at h
    cases h
    exact hacc
  | succ fuel ih =>
    intro cuts acc ls hacc h
    simp only [showdownLoop] at h
    split at h
    case isFalse => cases h; exact hacc
    split at h
    case isTrue => cases h; exact hacc
    case isFalse hstatus =>
    split at h
    case h_1 => exact Except.noConfusion h
    case h_2 pair selected_idxs lineup heq =>
      have hopt : (oracle cuts).status = SolveStatus.optimal := not_not.mp hstatus
      obtain ⟨hidx, hlen6, hpl, _⟩ := extractShowdown_ok entries params _ _ _ heq
      refine ih _ _ _ ?_ h
      intro lu hm
      rcases List.mem_append.mp hm with hold | hnew
      · exact hacc lu hold
      · rcases List.mem_singleton.mp hnew with rfl
        intro k
        have hb := hbe cuts hopt k
        rw [← hidx] at hb
        rw [hpl, List.countP_map]
        exact hb

/-- C10: with an oracle that honours the base-identity exclusivity constraints,
every returned showdown lineup has exactly one CPT entry, five non-CPT entries,
and no two of its entries share a name-and-team base identity. -/
theorem C10_showdown_cpt_and_base_identity
    (entries : List ShowdownEntry) (params : ShowdownParameters) (oracle : Oracle)
    (maxl : Option Int) (ls : List ShowdownLineupResult)
    (hbe : RespectsBaseExclusivity oracle entries)
    (h : generate_lineups_showdown entries params oracle maxl = .ok ls) :
    ∀ lu ∈ ls,
      (lu.entries.countP fun e => e.role = "CPT") = 1 ∧
      (lu.entries.countP fun e => ¬ e.role = "CPT") = 5 ∧
      ∀ k, (lu.entries.countP fun e => base_key e = k) ≤ 1 := by
  intro lu hm
  have hgood : GoodShowdownLineup params lu := by
    unfold generate_lineups_showdown at h
    split at h
    · exact Except.noConfusion h
    exact showdownLoop_good entries params oracle _ _ _ _ _ (by simp) h lu hm
  have hbase : ∀ k, (lu.entries.countP fun e => base_key e = k) ≤ 1 := by
    unfold generate_lineups_showdown at h
    split at h
    · exact Except.noConfusion h
    exact showdownLoop_base_exclusive entries params oracle _ hbe _ _ _ _
      (by simp) h lu hm
  refine ⟨hgood.2.1, ?_, hbase⟩
  have hlen := hgood.1
  have hcount := List.length_eq_countP_add_countP
    (fun e : ShowdownEntry => decide (e.role = "CPT")) lu.entries
  have hcpt := hgood.2.1
  simp only [decide_eq_true_eq] at hcount
  omega

/-- The concrete one-shot showdown oracle honours the base-identity constraints:
its single optimal assignment selects six entries with pairwise distinct base
identities. -/
theorem c1OracleS_respectsBase : RespectsBaseExclusivity c1OracleS c1PoolS := by
  intro cuts hst k
  match cuts with
  | [] =>
    have hf : ((List.range c1PoolS.length).filter fun i =>
        (c1OracleS []).selected.contains i) = [0, 1, 2, 3, 4, 5] := by rfl
    rw [hf]
    exact countP_le_one_of_nodup_map _ _ (by decide) k
  | c :: rest =>
    simp only [c1OracleS] at hst
    exact absurd hst (by simp)

/-- Witness for C10: the conclusion instantiated on the concrete showdown run
(first returned lineup, base key of its captain), all hypotheses discharged. -/
theorem C10_witness :
    ((c1RunS.head!).entries.countP fun e => e.role = "CPT") = 1 ∧
    ((c1RunS.head!).entries.countP fun e => ¬ e.role = "CPT") = 5 ∧
    ((c1RunS.head!).entries.countP fun e => base_key e = "qa|AA") ≤ 1 := by
  have hne : c1RunS ≠ [] := by decide
  have hmem : c1RunS.head! ∈ c1RunS := List.head!_mem_self hne
  obtain ⟨h1, h2, h3⟩ := C10_showdown_cpt_and_base_identity c1PoolS c1ParamsS
    c1OracleS none c1RunS c1OracleS_respectsBase (by rfl) (c1RunS.head!) hmem
  exact ⟨h1, h2, h3 "qa|AA"⟩

/-! ### Diversification selector (src/feature_diversify/selector.py) -/

/-- Embedding of `io_excel.LineupRecord` as consumed by the selector; the opaque
`original_row` (a pandas Series, never read by the selector) is omitted. -/
structure LineupRecord where
  source_key : String
  row_index : Int
  projection : Option ℚ
  player_tokens : Finset String
deriving DecidableEq

instance : Inhabited LineupRecord := ⟨⟨"", 0, none, ∅⟩⟩

/-- Embedding of `selector.SelectionResult`; the float-`nan` diagnostics of runs
with fewer than two selections become `none`. -/
structure SelectionResult where
  selected : List LineupRecord
  min_pairwise_jaccard : Option ℚ
  avg_pairwise_jaccard : Option ℚ
deriving DecidableEq

/-- Strict `<` on projections where `None` plays Python `float("-inf")`. -/
def projLt : Option ℚ → Option ℚ → Bool
  | none, none => false
  | none, some _ => true
  | some _, none => false
  | some a, some b => a < b

/-- Equality on projections where `None` plays `float("-inf")`. -/
def projEq : Option ℚ → Option ℚ → Bool
  | none, none => true
  | some a, some b => a == b
  | _, _ => false

/-- Strict `>` on the second tie-break component, where `none` plays the initial
`float("inf")`. -/
def sndGt : Option Int → Option Int → Bool
  | some a, some b => a > b
  | some _, none => false
  | none, some _ => true
  | none, none => false

/-- Python tuple comparison `tiebreak > best_tiebreak` on
`(projection or -inf, -row_index)` pairs. -/
def tbGt (a b : (Option ℚ) × (Option Int)) : Bool :=
  projLt b.1 a.1 || (projEq a.1 b.1 && sndGt a.2 b.2)

/-- Embedding of `math.isclose` with its default `rel_tol=1e-9`, `abs_tol=0.0`, exact over `ℚ`. -/
def isclose (a b : ℚ) : Bool :=
  |a - b| ≤ (1 / 1000000000) * max |a| |b|

/-- The seed-selection scan: highest average distance to the rest of the pool,
strict improvement only (`best_idx = -1` becomes `none`). -/
def seedScan (sets : List (Finset String)) : Option Nat × ℚ :=
  (List.range sets.length).foldl
    (fun acc i =>
      let score := avg_distance_to_pool (sets.getD i ∅) (sets.take i ++ sets.drop (i + 1))
      if score > acc.2 then (some i, score) else acc)
    (none, -1)

/-- The tie-break key `(projection or -inf, -row_index)` of a record. -/
def recTb (r : LineupRecord) : (Option ℚ) × (Option Int) :=
  (r.projection, some (-r.row_index))

/-- The key of the dead-code fallback seed, `(projection or -inf, -row_index)`:
under Python `or`, both `None` and a `0.0` projection fall back to `-inf`. -/
def fallbackKey (r : LineupRecord) : (Option ℚ) × (Option Int) :=
  ((match r.projection with
    | some p => if p = 0 then none else some p
    | none => none), some (-r.row_index))

/-- The dead-code fallback seed: `max(range(len(pool)), key=...)`, first index
attaining the maximal key. -/
def fallbackSeed (pool : List LineupRecord) : Option Nat :=
  (List.range pool.length).foldl
    (fun acc i =>
      match acc with
      | none => some i
      | some j => if tbGt (fallbackKey (pool.getD i default))
                      (fallbackKey (pool.getD j default))
                  then some i else acc)
    none

/-- Embedding of `remaining_by_source[source_key] -= 1`. -/
def decrement (m : List (String × Int)) (k : String) : List (String × Int) :=
  m.map fun kv => if kv.1 = k then (kv.1, kv.2 - 1) else kv

/-- Python `min` over a nonempty list of distances (the `[]` case is unreachable:
callers guard on nonemptiness). -/
def minDistTo (s : Finset String) (sel : List (Finset String)) : ℚ :=
  match sel.map (fun t => jaccard_distance s t) with
  | [] => 0
  | d :: ds => ds.foldl min d

/-- Embedding of `min_dist`: minimum distance to the already-selected sets, or — before anything
is selected — average distance to the rest of the pool. -/
def candMinDist (sets selected_sets : List (Finset String)) (i : Nat) : ℚ :=
  if selected_sets ≠ [] then minDistTo (sets.getD i ∅) selected_sets
  else avg_distance_to_pool (sets.getD i ∅) (sets.take i ++ sets.drop (i + 1))

/-- The running selection state of the greedy loop. -/
structure GreedyState where
  selected : List LineupRecord
  selected_sets : List (Finset String)
  remaining : List (String × Int)
  remaining_indices : List Nat

/-- One pass over `remaining_indices`: skip candidates whose source has no quota
left, score the rest, and keep the maximizer of
`(min_dist, then (projection, -row_index) on ties)`. -/
def greedyScan (pool : List LineupRecord) (sets selected_sets : List (Finset String))
    (remaining : List (String × Int)) (remaining_indices : List Nat) :
    Option Nat × ℚ × ((Option ℚ) × (Option Int)) :=
  remaining_indices.foldl
    (fun acc i =>
      let r := pool.getD i default
      if ((remaining.lookup r.source_key).getD 0) > 0 then
        let md := candMinDist sets selected_sets i
        let tb := recTb r
        if md > acc.2.1 || (isclose md acc.2.1 && tbGt tb acc.2.2) then (some i, md, tb)
        else acc
      else acc)
    (none, -1, (none, none))

/-- The greedy `while any(v > 0 for v in remaining_by_source.values())` loop; each
iteration either takes one candidate (removing its index) or breaks, so
`pool.length` fuel is enough. -/
def greedyLoop (pool : List LineupRecord) (sets : List (Finset String)) :
    Nat → GreedyState → GreedyState
  | 0, st => st
  | fuel + 1, st =>
    if st.remaining.any (fun kv => kv.2 > 0) then
      match (greedyScan pool sets st.selected_sets st.remaining st.remaining_indices).1 with
      | none => st
      | some i =>
        let r := pool.getD i default
        greedyLoop pool sets fuel
          { selected := st.selected ++ [r]
            selected_sets := st.selected_sets ++ [sets.getD i ∅]
            remaining := decrement st.remaining r.source_key
            remaining_indices := st.remaining_indices.filter (fun j => j ≠ i) }
    else st

/-- All pairwise distances `(i, j)` with `i < j` over the final selected sets. -/
def pairwiseDists (l : List (Finset String)) : List ℚ :=
  (List.range l.length).flatMap (fun i =>
    ((List.range l.length).filter (fun j => i < j)).map
      (fun j => jaccard_distance (l.getD i ∅) (l.getD j ∅)))

/-- Embedding of `farthest_first_with_quotas(candidates, quotas_by_source, seed)`.
The quota dictionary becomes an association list; `rng = random.Random(seed)` is
constructed but never consulted, so `seed` does not occur in the body. -/
def farthest_first_with_quotas (candidates : List LineupRecord)
    (quotas_by_source : List (String × Int)) (seed : Option Int := none) :
    SelectionResult :=
  let pool := candidates.filter fun c => (quotas_by_source.lookup c.source_key).isSome
  if pool = [] then ⟨[], none, none⟩
  else
    let sets := pool.map fun c => c.player_tokens
    let bi : Nat := match (seedScan sets).1 with
      | some i => i
      | none => (fallbackSeed pool).getD 0
    let r0 := pool.getD bi default
    let st0 : GreedyState :=
      if ((quotas_by_source.lookup r0.source_key).getD 0) > 0 then
        ⟨[r0], [sets.getD bi ∅], decrement quotas_by_source r0.source_key,
         (List.range pool.length).filter (fun j => j ≠ bi)⟩
      else
        ⟨[], [], quotas_by_source, (List.range pool.length).filter (fun j => j ≠ bi)⟩
    let stF := greedyLoop pool sets pool.length st0
    if stF.selected_sets.length ≥ 2 then
      let dists := pairwiseDists stF.selected_sets
      { selected := stF.selected
        min_pairwise_jaccard := match dists with
          | [] => none
          | d :: ds => some (ds.foldl min d)
        avg_pairwise_jaccard := if dists = [] then none
          else some (dists.sum / (dists.length : ℚ)) }
    else ⟨stF.selected, none, none⟩

/-! ### C9: determinism and seed independence -/

/-- C9: `farthest_first_with_quotas` is a pure function whose body never consults
the seeded random generator: two calls with equal candidates and quotas and any
two seeds return identical `SelectionResult`s (selection order and both pairwise
diagnostics included). -/
theorem C9_seed_independent_determinism (candidates : List LineupRecord)
    (quotas : List (String × Int)) (s1 s2 : Option Int) :
    farthest_first_with_quotas candidates quotas s1 =
      farthest_first_with_quotas candidates quotas s2 := rfl

/-! ### C6: per-source quota bounds -/

/-- Number of selected records tagged with source `s` (as an integer, to compare
with the integer quotas). -/
def srcCount (l : List LineupRecord) (s : String) : Int :=
  (l.countP fun r => r.source_key = s : Nat)

/-- The quota bookkeeping invariant of the greedy loop: per-source counts and the
remaining quotas always add up to the original quotas, remaining quotas never go
negative (when they started non-negative), and every selected record's source is a
key of the quota map, whose key set the remaining map preserves. -/
def QuotaInv (quotas : List (String × Int)) (sel : List LineupRecord)
    (rem : List (String × Int)) : Prop :=
  (∀ s : String, srcCount sel s + ((rem.lookup s).getD 0) = ((quotas.lookup s).getD 0)) ∧
  (∀ s : String, 0 ≤ ((quotas.lookup s).getD 0) → 0 ≤ ((rem.lookup s).getD 0)) ∧
  (∀ r ∈ sel, ((quotas.lookup r.source_key).isSome) = true) ∧
  (∀ s : String, ((rem.lookup s).isSome) = ((quotas.lookup s).isSome))

/-- Effect of `remaining_by_source[k] -= 1` on lookups. -/
theorem lookup_decrement (m : List (String × Int)) (k s : String) :
    (decrement m k).lookup s =
      if s = k then (m.lookup s).map (fun v => v - 1) else m.lookup s := by
  induction m with
  | nil => simp [decrement]
  | cons kv t ih =>
    obtain ⟨a, b⟩ := kv
    have hdec : decrement ((a, b) :: t) k =
        (if a = k then (a, b - 1) else (a, b)) :: decrement t k := rfl
    rw [hdec]
    by_cases hak : a = k
    · rw [if_pos hak]
      by_cases hsa : s = a
      · have hsk : s = k := hsa.trans hak
        simp [List.lookup, beq_iff_eq, hsa, hsk, hak]
      · have hsk : ¬s = k := fun h => hsa (h.trans hak.symm)
        simp only [List.lookup, beq_eq_false_iff_ne.mpr hsa, if_neg hsk, ih]
    · rw [if_neg hak]
      by_cases hsa : s = a
      · have hsk : ¬s = k := fun h => hak (hsa ▸ h)
        simp [List.lookup, beq_iff_eq, hsa, hsk, hak]
      · simp only [List.lookup, beq_eq_false_iff_ne.mpr hsa, ih]

/-- Decrementing preserves which keys are present. -/
theorem isSome_lookup_decrement (m : List (String × Int)) (k s : String) :
    ((decrement m k).lookup s).isSome = (m.lookup s).isSome := by
  rw [lookup_decrement]
  split <;> simp

/-- Generic foldl invariant preservation. -/
theorem foldl_preserve {α β : Type} (f : β → α → β) (P : β → Prop)
    (hstep : ∀ b a, P b → P (f b a)) :
    ∀ (l : List α) (b : β), P b → P (l.foldl f b) := by
  intro l
  induction l with
  | nil => intro b hb; exact hb
  | cons a t ih => intro b hb; exact ih (f b a) (hstep b a hb)

/-- The greedy scan only ever proposes a candidate whose source still has quota
(the `can_take_from` guard). -/
theorem greedyScan_canTake (pool : List LineupRecord)
    (sets selected_sets : List (Finset String)) (remaining : List (String × Int))
    (ris : List Nat) (i : Nat)
    (h : (greedyScan pool sets selected_sets remaining ris).1 = some i) :
    ((remaining.lookup (pool.getD i default).source_key).getD 0) > 0 := by
  refine foldl_preserve _
    (fun acc : Option Nat × ℚ × ((Option ℚ) × (Option Int)) =>
      ∀ j, acc.1 = some j →
        ((remaining.lookup (pool.getD j default).source_key).getD 0) > 0)
    ?_ ris (none, -1, (none, none)) (by intro j hj; simp at hj) i h
  intro b a hb
  dsimp only
  split
  · split
    · rename_i hguard _
      intro j hj
      simp only [Option.some.injEq] at hj
      subst hj
      exact hguard
    · exact hb
  · exact hb

/-- Taking a candidate whose source still has quota preserves the invariant. -/
theorem quotaInv_take (quotas : List (String × Int)) (sel : List LineupRecord)
    (rem : List (String × Int)) (r : LineupRecord)
    (hinv : QuotaInv quotas sel rem)
    (hct : ((rem.lookup r.source_key).getD 0) > 0) :
    QuotaInv quotas (sel ++ [r]) (decrement rem r.source_key) := by
  obtain ⟨h1, h2, h3, h4⟩ := hinv
  obtain ⟨v, hv⟩ : ∃ v, rem.lookup r.source_key = some v := by
    cases hvv : rem.lookup r.source_key with
    | none => rw [hvv] at hct; simp at hct
    | some v => exact ⟨v, rfl⟩
  have hvpos : 0 < v := by rw [hv] at hct; simpa using hct
  refine ⟨?_, ?_, ?_, ?_⟩
  · intro s
    rw [lookup_decrement]
    have hcnt : srcCount (sel ++ [r]) s =
        srcCount sel s + (if r.source_key = s then 1 else 0) := by
      simp only [srcCount, List.countP_append, List.countP_cons, List.countP_nil]
      split <;> simp_all
    by_cases hs : s = r.source_key
    · rw [hcnt, if_pos hs.symm, if_pos hs, hs, hv]
      have h1k := h1 r.source_key
      rw [hv] at h1k
      simp only [Option.map_some', Option.getD_some] at h1k ⊢
      omega
    · rw [hcnt, if_neg (fun hh => hs hh.symm), if_neg hs]
      simpa using h1 s
  · intro s h0
    rw [lookup_decrement]
    by_cases hs : s = r.source_key
    · rw [if_pos hs, hs, hv]
      simp only [Option.map_some', Option.getD_some]
      omega
    · rw [if_neg hs]
      exact h2 s h0
  · intro x hx
    rcases List.mem_append.mp hx with hold | hnew
    · exact h3 x hold
    · rcases List.mem_singleton.mp hnew with rfl
      rw [← h4]
      rw [hv]
      rfl
  · intro s
    rw [isSome_lookup_decrement]
    exact h4 s

/-- The greedy loop preserves the quota invariant. -/
theorem greedyLoop_inv (pool : List LineupRecord) (sets : List (Finset String))
    (quotas : List (String × Int)) :
    ∀ (fuel : Nat) (st : GreedyState),
      QuotaInv quotas st.selected st.remaining →
      QuotaInv quotas (greedyLoop pool sets fuel st).selected
        (greedyLoop pool sets fuel st).remaining := by
  intro fuel
  induction fuel with
  | zero => intro st h; exact h
  | succ fuel ih =>
    intro st h
    simp only [greedyLoop]
    split
    · split
      · exact h
      · rename_i i hscan
        exact ih _ (quotaInv_take quotas st.selected st.remaining _ h
          (greedyScan_canTake pool sets st.selected_sets st.remaining
            st.remaining_indices i hscan))
    · exact h

/-- What C6 claims of the selected list alone. -/
def SelOk (quotas : List (String × Int)) (sel : List LineupRecord) : Prop :=
  (∀ s : String, 0 ≤ ((quotas.lookup s).getD 0) →
    srcCount sel s ≤ ((quotas.lookup s).getD 0)) ∧
  (∀ r ∈ sel, ((quotas.lookup r.source_key).isSome) = true)

/-- The bookkeeping invariant implies the quota bounds. -/
theorem selOk_of_quotaInv (quotas : List (String × Int)) (sel : List LineupRecord)
    (rem : List (String × Int)) (h : QuotaInv quotas sel rem) :
    SelOk quotas sel := by
  obtain ⟨h1, h2, h3, _⟩ := h
  refine ⟨?_, h3⟩
  intro s hq
  have := h1 s
  have := h2 s hq
  omega

/-- The invariant holds initially (`remaining_by_source = dict(quotas_by_source)`). -/
theorem quotaInv_init (quotas : List (String × Int)) : QuotaInv quotas [] quotas :=
  ⟨fun s => by simp [srcCount], fun _ h => h, by simp, fun _ => rfl⟩

/-- C6: for every candidate list, quota map and seed, the returned selection holds
at most `quotas[s]` records tagged with source `s` (for any source whose quota is
non-negative), and never holds a record whose source key is absent from the quota
map. -/
theorem C6_quotas_respected (candidates : List LineupRecord)
    (quotas : List (String × Int)) (seed : Option Int) (s : String)
    (hq : 0 ≤ ((quotas.lookup s).getD 0)) :
    srcCount (farthest_first_with_quotas candidates quotas seed).selected s ≤
      ((quotas.lookup s).getD 0) ∧
    ∀ r ∈ (farthest_first_with_quotas candidates quotas seed).selected,
      ((quotas.lookup r.source_key).isSome) = true := by
  suffices h : SelOk quotas (farthest_first_with_quotas candidates quotas seed).selected by
    exact ⟨h.1 s hq, h.2⟩
  unfold farthest_first_with_quotas
  dsimp only
  split
  · exact ⟨fun s hq0 => by simpa [srcCount] using hq0, by simp⟩
  · split
    case isTrue hguard =>
      split
      · exact selOk_of_quotaInv quotas _ _ (greedyLoop_inv _ _ quotas _ _
          (quotaInv_take quotas [] quotas _ (quotaInv_init quotas) hguard))
      · exact selOk_of_quotaInv quotas _ _ (greedyLoop_inv _ _ quotas _ _
          (quotaInv_take quotas [] quotas _ (quotaInv_init quotas) hguard))
    case isFalse =>
      split
      · exact selOk_of_quotaInv quotas _ _ (greedyLoop_inv _ _ quotas _ _
          (quotaInv_init quotas))
      · exact selOk_of_quotaInv quotas _ _ (greedyLoop_inv _ _ quotas _ _
          (quotaInv_init quotas))

/-- Concrete candidates: two sources with quotas, one source absent from the map. -/
def c6Cands : List LineupRecord :=
  [ ⟨"srcA", 0, some 10, {"p1", "p2"}⟩
  , ⟨"srcA", 1, some 9, {"p3", "p4"}⟩
  , ⟨"srcB", 2, some 8, {"p5", "p6"}⟩
  , ⟨"srcC", 3, some 7, {"p7"}⟩ ]

def c6Quotas : List (String × Int) := [("srcA", 1), ("srcB", 1)]

/-- Witness for C6 at a concrete candidate list and quota map. -/
theorem C6_witness :
    srcCount (farthest_first_with_quotas c6Cands c6Quotas none).selected "srcA" ≤
      ((c6Quotas.lookup "srcA").getD 0) ∧
    ((farthest_first_with_quotas c6Cands c6Quotas none).selected.all
      (fun r => (c6Quotas.lookup r.source_key).isSome)) = true := by
  have h := C6_quotas_respected c6Cands c6Quotas none "srcA" (by decide)
  exact ⟨h.1, List.all_eq_true.mpr (fun r hr => h.2 r hr)⟩

/-! ### Showdown rule DSL (src/constraints/showdown_dsl.py) -/

/-- Embedding of `showdown_dsl.Selector` (frozen dataclass of optional,
case-normalized fields; absent fields are wildcards). -/
structure Selector where
  slot : Option String := none
  team : Option String := none
  pos : Option String := none
  pos_in : Option (List String) := none
  type : Option String := none
deriving DecidableEq, Repr

/-- Embedding of `showdown_dsl.CountCondition`. -/
structure CountCondition where
  selector : Selector
  min : Option Int := none
  max : Option Int := none
deriving DecidableEq, Repr

/-- Embedding of `showdown_dsl.ForbidCondition`. -/
structure ForbidCondition where
  left : Selector
  right : Selector
deriving DecidableEq, Repr

/-- Embedding of the `ConstraintClause` union (`CountCondition | ForbidCondition |
AnyOf`) as a tagged tree. -/
inductive ConstraintClause
  | count : CountCondition → ConstraintClause
  | forbid : ForbidCondition → ConstraintClause
  | anyOf : List ConstraintClause → ConstraintClause

/-- Embedding of `showdown_dsl.ConstraintRule`. -/
structure ConstraintRule where
  name : String
  when : Option CountCondition
  enforce : List ConstraintClause

/-- Modelled from the spec: the selector matcher used by `_violated_rules` in
`src.showdown` is exercised by the repository's tests but absent from the provided
sources.  A selector matches an entry iff every present field equals the entry's
corresponding field (`slot` ↔ role, `team` ↔ team, `pos` and `type` ↔ position,
`pos_in` ↔ position membership); absent fields are wildcards (spec section 4.2). -/
def selectorMatches (s : Selector) (e : ShowdownEntry) : Bool :=
  (match s.slot with
   | none => true
   | some v => v == e.role) &&
  (match s.team with
   | none => true
   | some v => v == e.team) &&
  (match s.pos with
   | none => true
   | some v => v == e.position) &&
  (match s.pos_in with
   | none => true
   | some l => l.contains e.position) &&
  (match s.type with
   | none => true
   | some v => v == e.position)

/-- Modelled from the spec: a Count clause holds iff the number of lineup entries
matched by its selector respects its optional min/max bounds (spec section 4.2). -/
def countHolds (c : CountCondition) (lineup : List ShowdownEntry) : Bool :=
  let n : Int := (lineup.countP fun e => selectorMatches c.selector e : Nat)
  (match c.min with
   | none => true
   | some m => m ≤ n) &&
  (match c.max with
   | none => true
   | some m => n ≤ m)

mutual

/-- Modelled from the spec: clause evaluation — a Forbid clause holds iff it is not
the case that some entry matches its left selector and some entry matches its
right selector; an AnyOf clause holds iff at least one nested clause holds (spec
section 4.2). -/
def clauseHolds (lineup : List ShowdownEntry) : ConstraintClause → Bool
  | .count c => countHolds c lineup
  | .forbid f => !((lineup.any fun e => selectorMatches f.left e) &&
                   (lineup.any fun e => selectorMatches f.right e))
  | .anyOf os => anyClauseHolds lineup os

/-- Python `any(...)` over the nested clauses of an AnyOf node. -/
def anyClauseHolds (lineup : List ShowdownEntry) : List ConstraintClause → Bool
  | [] => false
  | c :: cs => clauseHolds lineup c || anyClauseHolds lineup cs

end

/-- Modelled from the spec: a rule is violated iff its optional guard Count
condition holds and any of its enforce clauses evaluates to false (spec
section 4.2). -/
def ruleViolated (lineup : List ShowdownEntry) (r : ConstraintRule) : Bool :=
  (match r.when with
   | none => true
   | some c => countHolds c lineup) &&
  (r.enforce.any fun cl => !clauseHolds lineup cl)

/-- Modelled from the spec: `_violated_rules` reports whether any rule of the set
is violated against the lineup, together with the violated rule names. -/
def violated_rules (lineup : List ShowdownEntry)
    (rules : List (String × ConstraintRule)) : Bool × List String :=
  let names := (rules.filter fun kv => ruleViolated lineup kv.2).map fun kv => kv.1
  (!names.isEmpty, names)

/-- C5: a rule enforcing `Forbid(A, B)` is violated iff the lineup has at least
one entry matching `A` and at least one matching `B`; removing every `B`-matching
entry makes the rule no longer violated. -/
theorem C5_forbid_rule_semantics (A B : Selector) (name : String)
    (lineup : List ShowdownEntry) :
    (ruleViolated lineup ⟨name, none, [.forbid ⟨A, B⟩]⟩ =
      ((lineup.any fun e => selectorMatches A e) &&
       (lineup.any fun e => selectorMatches B e))) ∧
    ruleViolated (lineup.filter fun e => !selectorMatches B e)
      ⟨name, none, [.forbid ⟨A, B⟩]⟩ = false := by
  constructor
  · simp [ruleViolated, clauseHolds]
  · have hB : ((lineup.filter fun e => !selectorMatches B e).any
        fun e => selectorMatches B e) = false := by
      rw [List.any_eq_false]
      intro x hx
      have := List.of_mem_filter hx
      simpa using this
    simp [ruleViolated, clauseHolds, hB]

/-! ### The rule parser (src/constraints/showdown_dsl.py, `parse_rule` etc.) -/

/-- The universe of Python/YAML values the parser consumes (floats do not occur in
rule definitions and are not modelled). -/
inductive PyData
  | pynone
  | pybool (b : Bool)
  | pyint (n : Int)
  | pystr (s : String)
  | pylist (xs : List PyData)
  | pydict (kvs : List (String × PyData))

/-- Python `type(data).__name__`, as used in the selector error message. -/
def PyData.typeName : PyData → String
  | .pynone => "NoneType"
  | .pybool _ => "bool"
  | .pyint _ => "int"
  | .pystr _ => "str"
  | .pylist _ => "list"
  | .pydict _ => "dict"

/-- Python `str(x)` for the scalar values that occur in selector fields (the
`repr` of containers is not needed by any rule and not modelled). -/
def PyData.pyStr : PyData → String
  | .pynone => "None"
  | .pybool b => if b then "True" else "False"
  | .pyint n => toString n
  | .pystr s => s
  | .pylist _ => "[...]"
  | .pydict _ => "\x7b...\x7d"

def PyData.isDict : PyData → Bool
  | .pydict _ => true
  | _ => false

def PyData.isList : PyData → Bool
  | .pylist _ => true
  | _ => false

def PyData.isNone : PyData → Bool
  | .pynone => true
  | _ => false

/-- Embedding of `_parse_selector` (no rule name reaches it; its error messages
are the generic ones of the source, Python string quoting omitted). -/
def parse_selector (data : PyData) : Except String Selector :=
  match data with
  | .pydict kvs =>
    let fieldOf := fun (k : String) =>
      match kvs.lookup k with
      | some .pynone => none
      | some v => some (pyUpper v.pyStr)
      | none => none
    match (kvs.lookup "pos_in").getD .pynone with
    | .pynone =>
      .ok { slot := fieldOf "slot", team := fieldOf "team", pos := fieldOf "pos",
            pos_in := none, type := fieldOf "type" }
    | .pylist xs =>
      .ok { slot := fieldOf "slot", team := fieldOf "team", pos := fieldOf "pos",
            pos_in := some (xs.map fun x => pyUpper x.pyStr),
            type := fieldOf "type" }
    | _ => .error "selector.pos_in must be a list if provided"
  | _ => .error ("selector must be a mapping, got " ++ data.typeName)

/-- Python `int(value)` on the values that can occur for `min`/`max`. -/
def pyInt : PyData → Except String Int
  | .pyint n => .ok n
  | .pybool b => .ok (if b then 1 else 0)
  | .pystr s =>
    match s.toInt? with
    | some n => .ok n
    | none => .error "invalid literal for int()"
  | _ => .error "int() argument"

/-- Embedding of `_parse_int_or_none`. -/
def parse_int_or_none (v : PyData) (field_name : String) : Except String (Option Int) :=
  match v with
  | .pynone => .ok none
  | _ =>
    match pyInt v with
    | .ok n => .ok (some n)
    | .error _ => .error (field_name ++ " must be an integer if provided")

/-- Embedding of `_parse_count_condition`. -/
def parse_count_condition (data : PyData) : Except String CountCondition :=
  match data with
  | .pydict kvs =>
    if (kvs.lookup "selector").isSome = false then
      .error "count condition missing required selector"
    else
      match parse_selector ((kvs.lookup "selector").getD .pynone) with
      | .error e => .error e
      | .ok sel =>
        match parse_int_or_none ((kvs.lookup "min").getD .pynone) "min" with
        | .error e => .error e
        | .ok mn =>
          match parse_int_or_none ((kvs.lookup "max").getD .pynone) "max" with
          | .error e => .error e
          | .ok mx => .ok ⟨sel, mn, mx⟩
  | _ => .error "count condition must be a mapping"

/-- Embedding of `_parse_forbid_condition` (either direct selector fields or a
nested `selector` mapping are accepted on each side). -/
def parse_forbid_condition (data : PyData) : Except String ForbidCondition :=
  match data with
  | .pydict kvs =>
    if (kvs.lookup "left").isSome = false ∨ (kvs.lookup "right").isSome = false then
      .error "forbid condition requires left and right selectors"
    else
      let unwrap := fun (v : PyData) =>
        match v with
        | .pydict ikvs =>
          match ikvs.lookup "selector" with
          | some sv => sv
          | none => v
        | _ => v
      match parse_selector (unwrap ((kvs.lookup "left").getD .pynone)) with
      | .error e => .error e
      | .ok l =>
        match parse_selector (unwrap ((kvs.lookup "right").getD .pynone)) with
        | .error e => .error e
        | .ok r => .ok ⟨l, r⟩
  | _ => .error "forbid condition must be a mapping"

/-- Looked-up dictionary components are structurally smaller. -/
theorem sizeOf_lookup_lt (kvs : List (String × PyData)) (k : String) (v : PyData)
    (h : kvs.lookup k = some v) : sizeOf v < 1 + sizeOf kvs := by
  induction kvs with
  | nil => simp [List.lookup] at h
  | cons kv t ih =>
    obtain ⟨a, b⟩ := kv
    simp only [List.lookup] at h
    by_cases hk : (k == a) = true
    · simp only [hk] at h
      cases h
      simp only [Prod.mk.sizeOf_spec, List.cons.sizeOf_spec]
      omega
    · simp only [Bool.not_eq_true] at hk
      simp only [hk] at h
      have := ih h
      simp only [Prod.mk.sizeOf_spec, List.cons.sizeOf_spec]
      omega

mutual

/-- Embedding of `_parse_any_of`. -/
def parse_any_of (data : PyData) : Except String ConstraintClause :=
  match data with
  | .pylist xs =>
    match parse_clause_list xs with
    | .error e => .error e
    | .ok options =>
      if options.isEmpty then .error "any_of requires at least one option"
      else .ok (.anyOf options)
  | _ => .error "any_of must be a list"
termination_by sizeOf data
decreasing_by
  simp only [PyData.pylist.sizeOf_spec]
  omega

/-- The list comprehension `[_parse_enforce_clause(entry) for entry in ...]`,
stopping at the first error. -/
def parse_clause_list (xs : List PyData) : Except String (List ConstraintClause) :=
  match xs with
  | [] => .ok []
  | x :: rest =>
    match parse_enforce_clause x with
    | .error e => .error e
    | .ok c =>
      match parse_clause_list rest with
      | .error e => .error e
      | .ok cs => .ok (c :: cs)
termination_by sizeOf xs
decreasing_by
  all_goals simp only [List.cons.sizeOf_spec]
  all_goals omega

/-- Embedding of `_parse_enforce_clause`. -/
def parse_enforce_clause (data : PyData) : Except String ConstraintClause :=
  match data with
  | .pydict kvs =>
    match h1 : kvs.lookup "count" with
    | some v => (parse_count_condition v).map .count
    | none =>
      match h2 : kvs.lookup "forbid" with
      | some v => (parse_forbid_condition v).map .forbid
      | none =>
        match h3 : kvs.lookup "any_of" with
        | some v => parse_any_of v
        | none => .error "enforce clause must contain one of: count, forbid, any_of"
  | _ => .error "enforce clause must be a mapping"
termination_by sizeOf data
decreasing_by
  simp only [PyData.pydict.sizeOf_spec]
  exact sizeOf_lookup_lt _ _ _ (by assumption)

end

/-- Embedding of `parse_rule(name, data)` (Python string quoting inside messages
omitted; rule-level messages interpolate the rule name as in the source). -/
def parse_rule (name : String) (data : PyData) : Except String ConstraintRule :=
  match data with
  | .pydict kvs =>
    match (match (kvs.lookup "when").getD .pynone with
           | .pynone => .ok none
           | .pydict wkvs =>
             match wkvs.lookup "count" with
             | some v => (parse_count_condition v).map some
             | none => .error ("rule " ++ name ++
                 ": when must be of the form \x7bcount: ...\x7d")
           | _ => .error ("rule " ++ name ++
               ": when must be of the form \x7bcount: ...\x7d") :
           Except String (Option CountCondition)) with
    | .error e => .error e
    | .ok w =>
      match (kvs.lookup "enforce").getD .pynone with
      | .pylist es =>
        if es.isEmpty then
          .error ("rule " ++ name ++ " must have a non-empty enforce list")
        else
          match parse_clause_list es with
          | .error e => .error e
          | .ok cls => .ok ⟨name, w, cls⟩
      | _ => .error ("rule " ++ name ++ " must have a non-empty enforce list")
  | _ => .error ("rule " ++ name ++ " must be a mapping")

/-- Embedding of `parse_rules_mapping` (rule names are strings by construction in
the embedding, so the `isinstance(name, str)` guard cannot fire). -/
def parse_rules_mapping (rules : List (String × PyData)) :
    Except String (List (String × ConstraintRule)) :=
  match rules with
  | [] => .ok []
  | (name, cfg) :: rest =>
    match parse_rule name cfg with
    | .error e => .error e
    | .ok r =>
      match parse_rules_mapping rest with
      | .error e => .error e
      | .ok out => .ok ((name, r) :: out)

/-! ### Grounding the modelled parser and evaluator against the repository tests -/

/-- The six-entry lineup of `test_forbid_cpt_qb_with_opposing_dst` (entries are
constructed uppercased, as in the test helper). -/
def dslTestLineup : List ShowdownEntry :=
  [ mkE "QB_A_CPT" "TEAM_A" "TEAM_B" "QB" "CPT" 5000
  , mkE "RB_A" "TEAM_A" "TEAM_B" "RB" "FLEX" 5000
  , mkE "WR_A" "TEAM_A" "TEAM_B" "WR" "FLEX" 5000
  , mkE "WR_B" "TEAM_B" "TEAM_A" "WR" "FLEX" 5000
  , mkE "TE_B" "TEAM_B" "TEAM_A" "TE" "FLEX" 5000
  , mkE "DST_B" "TEAM_B" "TEAM_A" "DST" "FLEX" 5000 ]

/-- The parsed form of the forbid rule of `tests/test_showdown_dsl.py`. -/
def dslTestForbidRule : ConstraintRule :=
  ⟨"no_cpt_qbA_with_dstB", none,
   [.forbid ⟨⟨some "CPT", some "TEAM_A", some "QB", none, none⟩,
             ⟨none, some "TEAM_B", none, none, some "DST"⟩⟩]⟩

/-- The modelled evaluator reproduces `test_forbid_cpt_qb_with_opposing_dst`: the
rule is violated on the full lineup and satisfied once the opposing DST (the last
entry) is removed. -/
theorem dsl_test_forbid_grounding :
    violated_rules dslTestLineup [("no_cpt_qbA_with_dstB", dslTestForbidRule)] =
      (true, ["no_cpt_qbA_with_dstB"]) ∧
    violated_rules (dslTestLineup.take 5) [("no_cpt_qbA_with_dstB", dslTestForbidRule)] =
      (false, []) := ⟨by rfl, by rfl⟩

/-- The modelled parser produces `dslTestForbidRule` from its declarative form
(one selector given through the nested `selector` key, one directly). -/
theorem dsl_test_parse_grounding :
    parse_forbid_condition (.pydict [
        ("left", .pydict [("selector", .pydict [
          ("slot", .pystr "CPT"), ("pos", .pystr "QB"),
          ("team", .pystr "TEAM_A")])]),
        ("right", .pydict [
          ("type", .pystr "DST"), ("team", .pystr "TEAM_B")])]) =
      .ok ⟨⟨some "CPT", some "TEAM_A", some "QB", none, none⟩,
           ⟨none, some "TEAM_B", none, none, some "DST"⟩⟩ := by
  simp only [parse_forbid_condition, parse_selector, List.lookup, String.reduceBEq,
    Option.isSome_some, Bool.true_eq_false, or_self, if_false, Option.getD_some,
    PyData.pyStr, reduceIte]
  rfl

/-! ### C8: parse-time rejection of malformed rule shapes -/

/-- A rule whose count clause carries a non-mapping selector. -/
def c8BadSelectorRule : PyData :=
  .pydict [("enforce", .pylist [.pydict [("count",
    .pydict [("selector", .pyint 5)])]])]

/-- Counterexample to C8 as stated: a non-mapping selector is rejected at parse
time, but the error message is the generic selector message and does not name the
offending rule. -/
theorem C8_counterexample :
    parse_rule "r1" c8BadSelectorRule =
      .error "selector must be a mapping, got int" ∧
    ¬ (("r1".toList) <:+: ("selector must be a mapping, got int".toList)) := by
  constructor
  · simp [c8BadSelectorRule, parse_rule, parse_clause_list, parse_enforce_clause,
      parse_count_condition, parse_selector, PyData.typeName, List.lookup, Except.map]
  · decide

/-- A string is an infix of any of its paddings. -/
theorem toList_infix_mid (a b c : String) : b.toList <:+: (a ++ b ++ c).toList := by
  refine ⟨a.toList, c.toList, ?_⟩
  simp [String.toList]

/-- C8 (amended): malformed rule shapes are rejected at parse time, never deferred
to evaluation; rule-level shape errors (here: an absent, non-list or empty
`enforce`) carry a message naming the offending rule, while selector-level shape
errors (a non-mapping selector, a non-list `pos_in`) propagate the generic
selector message, which does not name the rule. -/
theorem C8_amended_parse_time_rejection :
    (∀ (name : String) (kvs : List (String × PyData)),
       kvs.lookup "when" = none →
       (∀ es, (kvs.lookup "enforce").getD .pynone = .pylist es → es = []) →
       parse_rule name (.pydict kvs) =
         .error ("rule " ++ name ++ " must have a non-empty enforce list") ∧
       (name.toList <:+:
         ("rule " ++ name ++ " must have a non-empty enforce list").toList)) ∧
    (∀ (name : String) (sel : PyData), sel.isDict = false →
       parse_rule name (.pydict [("enforce", .pylist [.pydict [("count",
           .pydict [("selector", sel)])]])]) =
         .error ("selector must be a mapping, got " ++ sel.typeName)) ∧
    (∀ (name : String) (v : PyData), v.isList = false → v.isNone = false →
       parse_rule name (.pydict [("enforce", .pylist [.pydict [("count",
           .pydict [("selector", .pydict [("pos_in", v)])])]])]) =
         .error "selector.pos_in must be a list if provided") := by
  refine ⟨?_, ?_, ?_⟩
  · intro name kvs hwhen henf
    constructor
    · cases henforce : (kvs.lookup "enforce").getD .pynone with
      | pylist es =>
        have hes := henf es henforce
        subst hes
        simp [parse_rule, hwhen, henforce]
      | pynone => simp [parse_rule, hwhen, henforce]
      | pybool b => simp [parse_rule, hwhen, henforce]
      | pyint n => simp [parse_rule, hwhen, henforce]
      | pystr s => simp [parse_rule, hwhen, henforce]
      | pydict d => simp [parse_rule, hwhen, henforce]
    · exact toList_infix_mid "rule " name " must have a non-empty enforce list"
  · intro name sel hd
    cases sel
    case pydict kvs => simp [PyData.isDict] at hd
    all_goals
      simp [parse_rule, parse_clause_list, parse_enforce_clause, parse_count_condition,
      parse_selector, parse_forbid_condition, PyData.typeName, List.lookup, Except.map]
  · intro name v hl hn
    cases v
    case pylist xs => simp [PyData.isList] at hl
    case pynone => simp [PyData.isNone] at hn
    all_goals
      simp [parse_rule, parse_clause_list, parse_enforce_clause, parse_count_condition,
      parse_selector, parse_forbid_condition, PyData.typeName, List.lookup, Except.map]

/-- Witness for the amended C8 at concrete malformed rules. -/
theorem C8_witness :
    parse_rule "r2" (.pydict [("enforce", .pyint 3)]) =
      .error "rule r2 must have a non-empty enforce list" ∧
    ("r2".toList <:+: "rule r2 must have a non-empty enforce list".toList) ∧
    parse_rule "r2" (.pydict [("enforce", .pylist [.pydict [("count",
        .pydict [("selector", .pystr "x")])]])]) =
      .error "selector must be a mapping, got str" ∧
    parse_rule "r2" (.pydict [("enforce", .pylist [.pydict [("count",
        .pydict [("selector", .pydict [("pos_in", .pyint 7)])])]])]) =
      .error "selector.pos_in must be a list if provided" := by
  obtain ⟨h1, h2, h3⟩ := C8_amended_parse_time_rejection
  have w1 := h1 "r2" [("enforce", .pyint 3)] (by rfl)
    (fun es h => PyData.noConfusion h)
  exact ⟨w1.1, w1.2, h2 "r2" (.pystr "x") (by rfl), h3 "r2" (.pyint 7)
    (by rfl) (by rfl)⟩
